import Mathlib

/-!
Verification of the browser-local persistence layer of the flashcard
application (Record Store, Media Store, Domain CRUD, Share/Export layer).

The TypeScript source keeps each record collection as one JSON object in
`localStorage` (a JavaScript object mapping string ids to records) and binary
media in IndexedDB.  We embed the relevant state shallowly:

* a JavaScript object is an association list `AList α` with string keys kept
  in insertion order, unique by construction (`alPut` upserts in place,
  `alDel` removes the key), matching `obj[k] = v` / `delete obj[k]` /
  `Object.values(obj)`;
* `Date.now()` and `uuidv4()` / media-id randomness are oracle parameters
  (`now : Nat`, generators `Nat → String`) threaded explicitly;
* the fire-and-forget `(async () => ...)()` closures inside the otherwise
  synchronous CRUD functions are *not* part of the synchronous state
  transition that a caller observes; each embedded function documents the
  async work it omits.  None of those closures touch the `decks` / `themes`
  / `flashcards` / `users` / `studySessions` / `shareCodes` collections
  except through later deferred writes, which are out of scope of the
  synchronous claims proved here;
* JavaScript string falsiness (`""` is falsy, everything else truthy) is
  modelled by explicit `= ""` tests; `x || dflt` on strings is `strOr`.
-/

namespace FlashForge

/-- Association list with string keys, modelling a JavaScript object used as
an id-to-record mapping.  Keys are unique for every object the source ever
builds; the operations below also behave uniformly when a key is duplicated
(replace / delete all occurrences), which coincides with the JS semantics on
the duplicate-free lists actually reachable. -/
abbrev AList (α : Type) := List (String × α)

/-- Lookup `obj[k]`: first binding of the key, `none` when absent. -/
def alGet {α : Type} : AList α → String → Option α
  | [], _ => none
  | (k, v) :: t, key => if k = key then some v else alGet t key

/-- Replace the value at every binding of `key` (used by `alPut` when the key
is already present, mirroring in-place JS property assignment). -/
def alReplace {α : Type} : AList α → String → α → AList α
  | [], _, _ => []
  | (k, w) :: t, key, v =>
    if k = key then (k, v) :: alReplace t key v else (k, w) :: alReplace t key v

/-- Upsert `obj[key] = v`: in-place replacement when the key exists, append
otherwise (JS objects keep insertion order). -/
def alPut {α : Type} (m : AList α) (key : String) (v : α) : AList α :=
  if (alGet m key).isSome then alReplace m key v else m ++ [(key, v)]

/-- Delete `delete obj[key]`: remove every binding of the key. -/
def alDel {α : Type} : AList α → String → AList α
  | [], _ => []
  | (k, v) :: t, key => if k = key then alDel t key else (k, v) :: alDel t key

/-- The values of the object, `Object.values(obj)`, in insertion order. -/
def alValues {α : Type} (m : AList α) : List α := m.map Prod.snd

/-- User record (`interface User`, `localStorage.ts`). -/
structure User where
  id : String
  username : String
  email : String
  password : String
  createdAt : Nat
deriving Repr, DecidableEq

/-- Deck record (`interface Deck`).  Optional JS fields are `Option`; the
optional booleans `isShared` / `isPublished` are collapsed to `Bool`
(`undefined` and `false` are indistinguishable everywhere the source reads
them, always through truthiness or `|| false`). -/
structure Deck where
  id : String
  title : String
  description : String
  coverImage : Option String := none
  coverImageId : Option String := none
  tags : List String := []
  authorId : String
  authorName : String
  isPublic : Bool
  createdAt : Nat
  updatedAt : Nat
  isShared : Bool := false
  originalId : Option String := none
  isPublished : Bool := false
deriving Repr, DecidableEq

/-- Theme record (`interface Theme`). -/
structure Theme where
  id : String
  deckId : String
  title : String
  description : String
  coverImage : Option String := none
  coverImageId : Option String := none
  createdAt : Nat
  updatedAt : Nat
deriving Repr, DecidableEq

/-- One side of a flashcard (`interface FlashcardSide`). -/
structure FlashcardSide where
  text : String
  image : Option String := none
  imageId : Option String := none
  audio : Option String := none
  audioId : Option String := none
  additionalInfo : Option String := none
deriving Repr, DecidableEq

/-- Review difficulty tier (`'easy' | 'medium' | 'hard'`). -/
inductive Difficulty where
  | easy | medium | hard
deriving Repr, DecidableEq

/-- Flashcard record (`interface Flashcard`). -/
structure Flashcard where
  id : String
  deckId : String
  themeId : Option String := none
  front : FlashcardSide
  back : FlashcardSide
  createdAt : Nat
  updatedAt : Nat
  lastReviewed : Option Nat := none
  reviewCount : Option Nat := none
  difficulty : Option Difficulty := none
deriving Repr, DecidableEq

/-- Study-session record (`interface StudySession`). -/
structure StudySession where
  id : String
  deckId : String
  userId : String
  startTime : Nat
  endTime : Option Nat := none
  cardsReviewed : Nat
  correctAnswers : Nat
  incorrectAnswers : Nat
deriving Repr, DecidableEq

/-- Entry stored under a share code: `shareCodes[code] = { deckId, expiryDate }`
(`createShareCode`). -/
structure ShareInfo where
  deckId : String
  expiryDate : Nat
deriving Repr, DecidableEq

/-- Portable deck snapshot (`interface SharedDeckExport`). -/
structure SharedDeckExport where
  id : String
  originalId : String
  title : String
  description : String
  themes : List Theme
  flashcards : List Flashcard
  createdAt : Nat
  updatedAt : Nat
deriving Repr, DecidableEq

/-- The whole Record Store: one entry per `localStorage` collection key, plus
the `sessionId` key holding the current user's id. -/
structure Store where
  users : AList User := []
  decks : AList Deck := []
  themes : AList Theme := []
  flashcards : AList Flashcard := []
  studySessions : AList StudySession := []
  shareCodes : AList ShareInfo := []
  sessionId : Option String := none
deriving Repr, DecidableEq

/-- JavaScript `x || dflt` on an optional string: `undefined` and the empty
string are the only falsy strings. -/
def strOr (o : Option String) (dflt : String) : String :=
  match o with
  | none => dflt
  | some s => if s = "" then dflt else s

/-- Substring occurrence on character lists (`String.prototype.includes`):
the pattern is a prefix of some suffix. -/
def hasSubstr (pat : List Char) : List Char → Bool
  | [] => pat.isEmpty
  | c :: rest => pat.isPrefixOf (c :: rest) || hasSubstr pat rest

/-- The inline-encoding test `isBase64String`: the string starts with
`"data:"` (`String.prototype.startsWith`) and contains the substring
`"base64,"` (`String.prototype.includes`), both rendered on the underlying
character lists. -/
def isBase64String : Option String → Bool
  | none => false
  | some s => "data:".data.isPrefixOf s.data && hasSubstr "base64,".data s.data

/-- Media identifier production, `generateMediaId`:
`{prefix}_{Date.now()}_{randomSuffix}` with the timestamp and suffix supplied
as oracles. -/
def generateMediaId (pfx : String) (now : Nat) (suffix : String) : String :=
  pfx ++ "_" ++ toString now ++ "_" ++ suffix

/-- Current user, `getUser()`: the `sessionId` key (falsy when absent or the
empty string) resolved through the `users` collection, `users[sessionId] || null`. -/
def getUser (s : Store) : Option User :=
  match s.sessionId with
  | none => none
  | some sid => if sid = "" then none else alGet s.users sid

/-- Single-deck read `getDeck` (synchronous part; the async opportunistic
cover-image hydration it triggers reads only the Media Store and never writes
the Record Store). -/
def getDeck (s : Store) (deckId : String) : Option Deck :=
  alGet s.decks deckId

/-- Collection read `getDecks`. -/
def getDecks (s : Store) : List Deck := alValues s.decks

/-- By-parent read `getThemesByDeck`: linear filter of `Object.values(themes)`. -/
def getThemesByDeck (s : Store) (deckId : String) : List Theme :=
  (alValues s.themes).filter (fun t => t.deckId = deckId)

/-- By-parent read `getFlashcardsByDeck`. -/
def getFlashcardsByDeck (s : Store) (deckId : String) : List Flashcard :=
  (alValues s.flashcards).filter (fun c => c.deckId = deckId)

/-- By-theme read `getFlashcardsByTheme`. -/
def getFlashcardsByTheme (s : Store) (themeId : String) : List Flashcard :=
  (alValues s.flashcards).filter (fun c => c.themeId = some themeId)

/-- Full collection read `getFlashcards`. -/
def getFlashcards (s : Store) : List Flashcard := alValues s.flashcards

/-- Argument of `createDeck` (`Partial<Deck>`): each field present or absent.
`authorId` / `authorName` in the partial are ignored by `createDeck` (it
always derives them from the current user), so they are not modelled. -/
structure DeckData where
  title : Option String := none
  description : Option String := none
  coverImage : Option String := none
  coverImageId : Option String := none
  tags : Option (List String) := none
  isPublic : Option Bool := none
  isShared : Option Bool := none
  originalId : Option String := none
  isPublished : Option Bool := none
deriving Repr, DecidableEq

/-- Deck creation `createDeck` (synchronous part).  Throws
("User not authenticated", rendered as `none`) without a current user;
otherwise builds the record with falsy-defaulted fields and persists it.
The omitted async closure migrates an inline cover image to the Media Store
and later re-writes the deck with `coverImageId`; it does not affect the
synchronous result below. -/
def createDeck (s : Store) (data : DeckData) (id : String) (now : Nat) :
    Option (Deck × Store) :=
  match getUser s with
  | none => none
  | some cu =>
    let d : Deck :=
      { id := id
        title := strOr data.title "Nouveau deck"
        description := strOr data.description ""
        coverImage := data.coverImage
        coverImageId := data.coverImageId
        tags := data.tags.getD []
        authorId := cu.id
        authorName := cu.username
        isPublic := data.isPublic.getD false
        createdAt := now
        updatedAt := now
        isShared := data.isShared.getD false
        originalId := data.originalId
        isPublished := data.isPublished.getD false }
    some (d, { s with decks := alPut s.decks id d })

/-- Argument of `createTheme` (`Partial<Theme> & { deckId }`). -/
structure ThemeData where
  deckId : String
  title : Option String := none
  description : Option String := none
  coverImage : Option String := none
  coverImageId : Option String := none
deriving Repr, DecidableEq

/-- Theme creation `createTheme` (synchronous part; async cover-image
migration omitted as for `createDeck`). -/
def createTheme (s : Store) (data : ThemeData) (id : String) (now : Nat) :
    Theme × Store :=
  let t : Theme :=
    { id := id
      deckId := data.deckId
      title := strOr data.title "Nouveau thème"
      description := strOr data.description ""
      coverImage := data.coverImage
      coverImageId := data.coverImageId
      createdAt := now
      updatedAt := now }
  (t, { s with themes := alPut s.themes id t })

/-- Argument of `createFlashcard` (`Partial<Flashcard> & { deckId }`). -/
structure FlashcardData where
  deckId : String
  themeId : Option String := none
  front : Option FlashcardSide := none
  back : Option FlashcardSide := none
  lastReviewed : Option Nat := none
  reviewCount : Option Nat := none
  difficulty : Option Difficulty := none
deriving Repr, DecidableEq

/-- Flashcard creation `createFlashcard` (synchronous part).  `front`/`back`
default to `{ text: "" }` only when absent (a provided side object is always
truthy); `reviewCount || 0` coincides with `getD 0` because `0 || 0 = 0`.
The omitted async closure runs `processFlashcardMedia` on both sides and
re-writes the card with media references once the Media Store confirms the
writes. -/
def createFlashcard (s : Store) (data : FlashcardData) (id : String) (now : Nat) :
    Flashcard × Store :=
  let f : Flashcard :=
    { id := id
      deckId := data.deckId
      themeId := data.themeId
      front := data.front.getD { text := "" }
      back := data.back.getD { text := "" }
      createdAt := now
      updatedAt := now
      lastReviewed := data.lastReviewed
      reviewCount := some (data.reviewCount.getD 0)
      difficulty := data.difficulty }
  (f, { s with flashcards := alPut s.flashcards id f })

/-- Update patch for a deck (`Partial<Deck>`): every field optionally
present.  A JS patch carrying an explicitly-`undefined` optional field is
conflated with the field being absent (no caller distinguishes them). -/
structure DeckPatch where
  id : Option String := none
  title : Option String := none
  description : Option String := none
  coverImage : Option String := none
  coverImageId : Option String := none
  tags : Option (List String) := none
  authorId : Option String := none
  authorName : Option String := none
  isPublic : Option Bool := none
  createdAt : Option Nat := none
  updatedAt : Option Nat := none
  isShared : Option Bool := none
  originalId : Option String := none
  isPublished : Option Bool := none
deriving Repr, DecidableEq

/-- The spread `{ ...deck, ...updates, updatedAt: Date.now() }`: shallow
merge of the provided fields over the record, with `updatedAt` always set
last to the call time. -/
def mergeDeck (d : Deck) (p : DeckPatch) (now : Nat) : Deck :=
  { id := p.id.getD d.id
    title := p.title.getD d.title
    description := p.description.getD d.description
    coverImage := if p.coverImage.isSome then p.coverImage else d.coverImage
    coverImageId := if p.coverImageId.isSome then p.coverImageId else d.coverImageId
    tags := p.tags.getD d.tags
    authorId := p.authorId.getD d.authorId
    authorName := p.authorName.getD d.authorName
    isPublic := p.isPublic.getD d.isPublic
    createdAt := p.createdAt.getD d.createdAt
    updatedAt := now
    isShared := p.isShared.getD d.isShared
    originalId := if p.originalId.isSome then p.originalId else d.originalId
    isPublished := p.isPublished.getD d.isPublished }

/-- The guard in `updateDeck` / `updateTheme`:
`isBase64String(updates.coverImage) && updates.coverImage !== current`.
When it holds the source runs `delete updates.coverImage` (deferring the
cover to the async migration path) before merging. -/
def coverDeferred (p : Option String) (current : Option String) : Prop :=
  isBase64String p = true ∧ p ≠ current

instance (p current : Option String) : Decidable (coverDeferred p current) := by
  unfold coverDeferred
  infer_instance

/-- Deck update `updateDeck` (synchronous part).  Returns `null` (`none`) and
leaves the store untouched when the deck is absent; otherwise drops an
inline-and-changed `coverImage` from the patch, merges, persists and returns
the merged record.  The omitted async closure deletes the old cover blob,
stores the new one and later re-writes the deck with the new reference. -/
def updateDeck (s : Store) (deckId : String) (p : DeckPatch) (now : Nat) :
    Option Deck × Store :=
  match alGet s.decks deckId with
  | none => (none, s)
  | some d =>
    let p' := if coverDeferred p.coverImage d.coverImage then { p with coverImage := none } else p
    let u := mergeDeck d p' now
    (some u, { s with decks := alPut s.decks deckId u })

/-- Update patch for a theme (`Partial<Theme>`). -/
structure ThemePatch where
  id : Option String := none
  deckId : Option String := none
  title : Option String := none
  description : Option String := none
  coverImage : Option String := none
  coverImageId : Option String := none
  createdAt : Option Nat := none
  updatedAt : Option Nat := none
deriving Repr, DecidableEq

/-- Shallow merge for themes, `{ ...theme, ...updates, updatedAt: Date.now() }`. -/
def mergeTheme (t : Theme) (p : ThemePatch) (now : Nat) : Theme :=
  { id := p.id.getD t.id
    deckId := p.deckId.getD t.deckId
    title := p.title.getD t.title
    description := p.description.getD t.description
    coverImage := if p.coverImage.isSome then p.coverImage else t.coverImage
    coverImageId := if p.coverImageId.isSome then p.coverImageId else t.coverImageId
    createdAt := p.createdAt.getD t.createdAt
    updatedAt := now }

/-- Theme update `updateTheme` (synchronous part; same cover-image deferral
and async tail as `updateDeck`). -/
def updateTheme (s : Store) (themeId : String) (p : ThemePatch) (now : Nat) :
    Option Theme × Store :=
  match alGet s.themes themeId with
  | none => (none, s)
  | some t =>
    let p' := if coverDeferred p.coverImage t.coverImage then { p with coverImage := none } else p
    let u := mergeTheme t p' now
    (some u, { s with themes := alPut s.themes themeId u })

/-- Update patch for a flashcard (`Partial<Flashcard>`). -/
structure FlashPatch where
  id : Option String := none
  deckId : Option String := none
  themeId : Option String := none
  front : Option FlashcardSide := none
  back : Option FlashcardSide := none
  createdAt : Option Nat := none
  updatedAt : Option Nat := none
  lastReviewed : Option Nat := none
  reviewCount : Option Nat := none
  difficulty : Option Difficulty := none
deriving Repr, DecidableEq

/-- Shallow merge for flashcards, `{ ...flashcard, ...updates, updatedAt: Date.now() }`. -/
def mergeFlashcard (f : Flashcard) (p : FlashPatch) (now : Nat) : Flashcard :=
  { id := p.id.getD f.id
    deckId := p.deckId.getD f.deckId
    themeId := if p.themeId.isSome then p.themeId else f.themeId
    front := p.front.getD f.front
    back := p.back.getD f.back
    createdAt := p.createdAt.getD f.createdAt
    updatedAt := now
    lastReviewed := if p.lastReviewed.isSome then p.lastReviewed else f.lastReviewed
    reviewCount := if p.reviewCount.isSome then p.reviewCount else f.reviewCount
    difficulty := if p.difficulty.isSome then p.difficulty else f.difficulty }

/-- Flashcard update `updateFlashcard` (synchronous part).  The whole patch
is merged and persisted synchronously; the omitted async closure re-runs
`processFlashcardMedia` on an updated side and re-writes the card once the
Media Store confirms. -/
def updateFlashcard (s : Store) (flashcardId : String) (p : FlashPatch) (now : Nat) :
    Option Flashcard × Store :=
  match alGet s.flashcards flashcardId with
  | none => (none, s)
  | some f =>
    let u := mergeFlashcard f p now
    (some u, { s with flashcards := alPut s.flashcards flashcardId u })

/-- Deck deletion `deleteDeck`.  Returns `false` untouched when the deck is
absent; otherwise removes, in one synchronous pass, every flashcard and
theme owned by the deck and the deck itself, then writes all three
collections back.  The omitted async closure only deletes owned Media Store
blobs. -/
def deleteDeck (s : Store) (deckId : String) : Bool × Store :=
  match alGet s.decks deckId with
  | none => (false, s)
  | some _ =>
    let flashcards := s.flashcards.filter (fun c => ¬ (c.2.deckId = deckId))
    let themes := s.themes.filter (fun t => ¬ (t.2.deckId = deckId))
    (true, { s with flashcards := flashcards, themes := themes, decks := alDel s.decks deckId })

/-- Theme deletion `deleteTheme`.  Returns `false` untouched when absent;
otherwise removes only the theme record (the async tail deletes its cover
blob from the Media Store).  Flashcards are not visited at all. -/
def deleteTheme (s : Store) (themeId : String) : Bool × Store :=
  match alGet s.themes themeId with
  | none => (false, s)
  | some _ => (true, { s with themes := alDel s.themes themeId })

/-- Flashcard deletion `deleteFlashcard` (async media deletion omitted). -/
def deleteFlashcard (s : Store) (flashcardId : String) : Bool × Store :=
  match alGet s.flashcards flashcardId with
  | none => (false, s)
  | some _ => (true, { s with flashcards := alDel s.flashcards flashcardId })

/-- Share-code creation `createShareCode`.  Throws ("Deck not found", `none`)
when the deck is absent; otherwise stores
`shareCodes[code] = { deckId, expiryDate: now + expiryDays*24*60*60*1000 }`
under the token `share_{deckId}_{now}_{expiryDays}`.  The two `Date.now()`
calls of the source (token timestamp and expiry base) are modelled by the
single oracle `now`. -/
def createShareCode (s : Store) (deckId : String) (expiryDays : Nat) (now : Nat) :
    Option (String × Store) :=
  match getDeck s deckId with
  | none => none
  | some _ =>
    let code := "share_" ++ deckId ++ "_" ++ toString now ++ "_" ++ toString expiryDays
    let info : ShareInfo := { deckId := deckId, expiryDate := now + expiryDays * 24 * 60 * 60 * 1000 }
    some (code, { s with shareCodes := alPut s.shareCodes code info })

/-- Share-code resolution `getSharedDeck` at time `now`: `null` on an unknown
code; on `expiryDate < now` the code is evicted and `null` returned;
otherwise the linked deck is read (which may itself be `null` if the deck
was deleted meanwhile). -/
def getSharedDeck (s : Store) (code : String) (now : Nat) : Option Deck × Store :=
  match alGet s.shareCodes code with
  | none => (none, s)
  | some info =>
    if info.expiryDate < now then
      (none, { s with shareCodes := alDel s.shareCodes code })
    else
      (getDeck s info.deckId, s)

/-- Fresh-id reassignment of the exported theme copies,
`themes.map(theme => ({ ...theme, id: uuidv4() }))`, with the `uuidv4`
oracle indexed from `i`.  Only the `id` field changes; in particular the
flashcards' `themeId` back-references are *not* rewritten anywhere. -/
def assignThemeIds (gen : Nat → String) : Nat → List Theme → List Theme
  | _, [] => []
  | i, t :: ts => { t with id := gen i } :: assignThemeIds gen (i + 1) ts

/-- Fresh-id reassignment of the exported flashcard copies,
`flashcards.map(card => ({ ...card, id: uuidv4() }))`. -/
def assignCardIds (gen : Nat → String) : Nat → List Flashcard → List Flashcard
  | _, [] => []
  | i, c :: cs => { c with id := gen i } :: assignCardIds gen (i + 1) cs

/-- Deck export `exportDeckToJson`: throws ("Deck not found", `none`) on a
missing deck, otherwise snapshots the deck subtree with fresh ids
(`gen 0` for the export itself, then one per theme, then one per card). -/
def exportDeckToJson (s : Store) (deckId : String) (gen : Nat → String) (now : Nat) :
    Option SharedDeckExport :=
  match getDeck s deckId with
  | none => none
  | some deck =>
    let themes := getThemesByDeck s deckId
    let flashcards := getFlashcardsByDeck s deckId
    some
      { id := gen 0
        originalId := deck.id
        title := deck.title
        description := deck.description
        themes := assignThemeIds gen 1 themes
        flashcards := assignCardIds gen (1 + themes.length) flashcards
        createdAt := now
        updatedAt := now }

/-- The theme-import loop of `importDeckFromJson`: recreates each exported
theme under the new deck and records `themeIdMap.set(theme.id, newTheme.id)`
keyed by the *exported* theme id.  Returns the updated store, the map and
the next free generator index. -/
def importThemes (gen : Nat → String) (now : Nat) (newDeckId : String) :
    List Theme → Nat → Store → AList String → Store × AList String × Nat
  | [], i, s, m => (s, m, i)
  | t :: ts, i, s, m =>
    let r := createTheme s { deckId := newDeckId, title := some t.title, description := some t.description } (gen i) now
    importThemes gen now newDeckId ts (i + 1) r.2 (alPut m t.id r.1.id)

/-- The flashcard-import loop of `importDeckFromJson`:
`card.themeId ? themeIdMap.get(card.themeId) : undefined` (a falsy empty
`themeId` short-circuits to `undefined`), then `createFlashcard` with the
card's sides and difficulty. -/
def importCards (gen : Nat → String) (now : Nat) (newDeckId : String)
    (m : AList String) : List Flashcard → Nat → Store → Store
  | [], _, s => s
  | c :: cs, i, s =>
    let newThemeId : Option String :=
      match c.themeId with
      | none => none
      | some tid => if tid = "" then none else alGet m tid
    let r := createFlashcard s
      { deckId := newDeckId, themeId := newThemeId, front := some c.front,
        back := some c.back, difficulty := c.difficulty } (gen i) now
    importCards gen now newDeckId m cs (i + 1) r.2

/-- Deck import `importDeckFromJson`: throws ("User not authenticated",
`none`) unless the current user matches `userId`; creates the new deck
(`isShared`, `originalId` carried over, `isPublic: false`), then replays the
exported themes and flashcards through the two loops above.  Ids are drawn
from `gen`: `gen 0` for the deck, then one per theme, then one per card. -/
def importDeckFromJson (s : Store) (e : SharedDeckExport) (userId : String)
    (gen : Nat → String) (now : Nat) : Option (String × Store) :=
  match getUser s with
  | none => none
  | some cu =>
    if cu.id ≠ userId then none
    else
      match createDeck s
        { title := some e.title, description := some e.description,
          isPublic := some false, isShared := some true,
          originalId := some e.originalId } (gen 0) now with
      | none => none
      | some (nd, s₁) =>
        let r := importThemes gen now nd.id e.themes 1 s₁ []
        let s₃ := importCards gen now nd.id r.2.1 e.flashcards r.2.2 r.1
        some (nd.id, s₃)

/-!
### Media Store (`indexedDBStorage.ts`)

Each operation is an `async` function of the shape

```
try {
  const db = await openDatabase();
  return new Promise((resolve, reject) => { ...request handlers... });
} catch (error) { console.error(...); return sentinel; }
```

The settled state of the promise such a function hands to its caller is
`PResult`.  Two JavaScript facts drive the embedding and must be preserved:

1. `await openDatabase()` *is* awaited inside the `try`, so a rejection of
   the open is caught and converted to the sentinel (`false` / `null`);
2. the inner promise is returned with `return p`, **not** `return await p`,
   so when the put/get request fails and the inner executor calls
   `reject(request.error)`, that rejection resolves the async function's own
   promise to a rejection — the surrounding `catch` never runs for it.

Blobs are modelled by their source data string; the IndexedDB outcomes
(open, and the single keyed request of the one transaction each operation
performs) are oracle fields of `MediaDBEnv`, with `Except.error` standing
for the DOM error surfaced to `onerror` handlers.
-/

/-- Settled state of the promise a Media Store operation returns. -/
inductive PResult (α : Type) where
  | resolved : α → PResult α
  | rejected : String → PResult α
deriving Repr, DecidableEq

/-- The two key-value partitions of the `MediaDB` database
(`imagesStore`, `audioStore`). -/
structure MediaDB where
  imagesStore : AList String := []
  audioStore : AList String := []
deriving Repr, DecidableEq

/-- Outcome oracles for one Media Store operation: whether `openDatabase()`
settles (`.ok`) or rejects, and whether the single `put`/`get` request of
the operation's transaction succeeds or fires `onerror`. -/
structure MediaDBEnv where
  openOk : Except String Unit
  reqOk : Except String Unit
deriving Repr

/-- Media Store `storeImage` (upsert into `imagesStore`): open failure is
caught (`return false`); a failing put request rejects the returned promise
(see the section comment). -/
def storeImage (env : MediaDBEnv) (db : MediaDB) (imageId imageBlob : String) :
    PResult Bool × MediaDB :=
  match env.openOk with
  | .error _ => (.resolved false, db)
  | .ok _ =>
    match env.reqOk with
    | .ok _ => (.resolved true, { db with imagesStore := alPut db.imagesStore imageId imageBlob })
    | .error e => (.rejected e, db)

/-- Media Store `storeAudio` (upsert into `audioStore`). -/
def storeAudio (env : MediaDBEnv) (db : MediaDB) (audioId audioBlob : String) :
    PResult Bool × MediaDB :=
  match env.openOk with
  | .error _ => (.resolved false, db)
  | .ok _ =>
    match env.reqOk with
    | .ok _ => (.resolved true, { db with audioStore := alPut db.audioStore audioId audioBlob })
    | .error e => (.rejected e, db)

/-- Media Store `getImage`: open failure caught (`return null`); a successful
get resolves `request.result || null` (the lookup); a failing get request
rejects the returned promise. -/
def getImage (env : MediaDBEnv) (db : MediaDB) (imageId : String) :
    PResult (Option String) :=
  match env.openOk with
  | .error _ => .resolved none
  | .ok _ =>
    match env.reqOk with
    | .ok _ => .resolved (alGet db.imagesStore imageId)
    | .error e => .rejected e

/-- Media Store `getAudio`. -/
def getAudio (env : MediaDBEnv) (db : MediaDB) (audioId : String) :
    PResult (Option String) :=
  match env.openOk with
  | .error _ => .resolved none
  | .ok _ =>
    match env.reqOk with
    | .ok _ => .resolved (alGet db.audioStore audioId)
    | .error e => .rejected e

/-!
### Record Store raw read (`getLocalStorageItem`)

```
try {
  const item = localStorage.getItem(key);
  return item ? JSON.parse(item) : null;
} catch (error) { console.error(...); return null; }
```

The raw stored document is `Option String` (`localStorage.getItem` yields
the string or `null`; a stored empty string is also falsy and yields `null`,
which the branch below covers).  `JSON.parse` is a host-provided partial
function, modelled as the oracle `parse`, `none` standing for a thrown
`SyntaxError` (caught and converted to `null`). -/
def getLocalStorageItem {α : Type} (raw : Option String) (parse : String → Option α) :
    Option α :=
  match raw with
  | none => none
  | some item =>
    if item = "" then none
    else
      match parse item with
      | some v => some v
      | none => none

/-- The call-site composite every collection reader uses,
`getLocalStorageItem(name) || {}`. -/
def readCollection {α : Type} (raw : Option String) (parse : String → Option (AList α)) :
    AList α :=
  (getLocalStorageItem raw parse).getD []

/-!
### Batch media migration (`migrationTools.ts`)

`migrateExistingMediaToIndexedDB` snapshots `getFlashcards()` once, then for
each card and each of the four media slots (front image, front audio, back
image, back audio) with an inline base64 value and a falsy reference id,
generates a media id, awaits the blob store, and on success sets the id; a
card with at least one migrated slot is written back through
`updateFlashcard(card.id, card)` (the full mutated card as the patch) and
counted.  The function is fully awaited (no fire-and-forget), so the state
threading below is its actual sequential semantics; only the async tail of
each inner `updateFlashcard` call (re-running `processFlashcardMedia`, which
never changes the record fields at issue) is omitted.

Oracles: `now` (every `Date.now()` of the run), `rand k` (the random suffix
of the `k`-th attempted media-store operation) and `storeOk k` (whether that
operation's `storeImage`/`storeAudio` reports success).  One index `k` is
consumed per attempted slot. -/
structure MigEnv where
  now : Nat
  rand : Nat → String
  storeOk : Nat → Bool

/-- Migration-time state: the Record Store, the two media partitions and the
index of the next media-store operation. -/
structure MigState where
  store : Store
  images : AList String := []
  audio : AList String := []
  k : Nat := 0
deriving Repr, DecidableEq

/-- JavaScript falsiness of an optional reference-id field
(`!card.front.imageId`): absent or the empty string. -/
def needsId : Option String → Bool
  | none => true
  | some s => s = ""

/-- Whether one media slot triggers migration:
`isBase64String(value) && !idField`. -/
def slotDirty (v idf : Option String) : Bool :=
  isBase64String v && needsId idf

/-- One media slot of the migration loop: on a dirty slot, generate the id,
store the decoded blob (success per the oracle), and return the new id field
on success.  `isImg` selects the partition and the `img`/`aud` prefix. -/
def slotMigrate (env : MigEnv) (st : MigState) (isImg : Bool) (v idf : Option String) :
    MigState × Option String × Bool :=
  if slotDirty v idf then
    let mid := generateMediaId (if isImg then "img" else "aud") env.now (env.rand st.k)
    let ok := env.storeOk st.k
    let st' : MigState :=
      { st with
        k := st.k + 1
        images := if isImg && ok then alPut st.images mid (v.getD "") else st.images
        audio := if !isImg && ok then alPut st.audio mid (v.getD "") else st.audio }
    if ok then (st', some mid, true) else (st', idf, false)
  else (st, idf, false)

/-- The full-record patch `updateFlashcard(card.id, card)` passes: every
field of the card, present. -/
def Flashcard.toPatch (c : Flashcard) : FlashPatch :=
  { id := some c.id, deckId := some c.deckId, themeId := c.themeId,
    front := some c.front, back := some c.back, createdAt := some c.createdAt,
    updatedAt := some c.updatedAt, lastReviewed := c.lastReviewed,
    reviewCount := c.reviewCount, difficulty := c.difficulty }

/-- The loop body of `migrateExistingMediaToIndexedDB` for one snapshot card:
the four slots in source order (front image, front audio, back image, back
audio), then, when any slot was migrated, the `updateFlashcard` write-back.
Returns the new state and this card's contribution to `migratedCount`. -/
def migrateCard (env : MigEnv) (st : MigState) (c : Flashcard) : MigState × Nat :=
  let r1 := slotMigrate env st true c.front.image c.front.imageId
  let r2 := slotMigrate env r1.1 false c.front.audio c.front.audioId
  let r3 := slotMigrate env r2.1 true c.back.image c.back.imageId
  let r4 := slotMigrate env r3.1 false c.back.audio c.back.audioId
  if r1.2.2 || r2.2.2 || r3.2.2 || r4.2.2 then
    let c' : Flashcard :=
      { c with
        front := { c.front with imageId := r1.2.1, audioId := r2.2.1 }
        back := { c.back with imageId := r3.2.1, audioId := r4.2.1 } }
    let w := updateFlashcard r4.1.store c.id c'.toPatch env.now
    ({ r4.1 with store := w.2 }, 1)
  else (r4.1, 0)

/-- The migration loop over the snapshot list, threading the state and
summing `migratedCount`. -/
def migrateRun (env : MigEnv) : List Flashcard → MigState → MigState × Nat
  | [], st => (st, 0)
  | c :: cs, st =>
    let r := migrateCard env st c
    let rest := migrateRun env cs r.1
    (rest.1, r.2 + rest.2)

/-- Batch migration `migrateExistingMediaToIndexedDB`: snapshot
`getFlashcards()`, run the loop, return the migrated count
(the `catch`-and-return-0 wrapper is unreachable in the model:
nothing below throws). -/
def migrateExistingMediaToIndexedDB (env : MigEnv) (st : MigState) : Nat × MigState :=
  let r := migrateRun env (getFlashcards st.store) st
  (r.2, r.1)

/-- Migration scan `checkForMigrationNeeded`: counts the snapshot cards with
at least one dirty slot. -/
def checkForMigrationNeeded (s : Store) : Nat :=
  ((getFlashcards s).filter
    (fun c =>
      slotDirty c.front.image c.front.imageId ||
      slotDirty c.front.audio c.front.audioId ||
      slotDirty c.back.image c.back.imageId ||
      slotDirty c.back.audio c.back.audioId)).length

/-!
### Concrete fixtures used by witnesses and counterexamples
-/

/-- Demo user (mirrors the spec's concrete scenario). -/
def demoUser : User :=
  { id := "u1", username := "demo", email := "demo@x.com", password := "pw", createdAt := 0 }

/-- Demo deck owned by the demo user. -/
def demoDeck : Deck :=
  { id := "d1", title := "T", description := "Desc", authorId := "u1", authorName := "demo",
    isPublic := false, createdAt := 0, updatedAt := 0 }

/-- Demo theme of the demo deck. -/
def demoTheme : Theme :=
  { id := "t1", deckId := "d1", title := "Th", description := "", createdAt := 0, updatedAt := 0 }

/-- Demo flashcard of the demo deck, attached to the demo theme. -/
def demoCard : Flashcard :=
  { id := "f1", deckId := "d1", themeId := some "t1", front := { text := "Q" },
    back := { text := "A" }, createdAt := 0, updatedAt := 0 }

/-- Demo store: one authenticated user, one deck with one theme and one card. -/
def demoStore : Store :=
  { users := [("u1", demoUser)], decks := [("d1", demoDeck)], themes := [("t1", demoTheme)],
    flashcards := [("f1", demoCard)], sessionId := some "u1" }

/-- The store `createShareCode demoStore "d1" 1 0` produces: the token
`share_d1_0_1` mapped to deck `d1` with expiry `0 + 1*24*60*60*1000`. -/
def demoShareStore : Store :=
  { demoStore with
    shareCodes := [("share_d1_0_1", { deckId := "d1", expiryDate := 86400000 })] }

/-- Patch carrying only a new inline cover image (for the C7 counterexample). -/
def coverPatch : DeckPatch := { coverImage := some "data:image/png;base64,AAAA" }

/-- Patch carrying only a new title (for the C7 witness). -/
def titlePatch : DeckPatch := { title := some "New" }

/-- Export-side id oracle for the concrete export/import runs. -/
def genE (k : Nat) : String := "E" ++ toString k

/-- Import-side id oracle for the concrete export/import runs. -/
def genI (k : Nat) : String := "N" ++ toString k

/-- The export of the demo deck (ids `E0`/`E1`/`E2` at time 10). -/
def demoExport : Option SharedDeckExport := exportDeckToJson demoStore "d1" genE 10

/-- The demo export imported back by the demo user (ids `N0`/`N1`/`N2` at
time 20). -/
def demoImport : Option (String × Store) :=
  demoExport.bind (fun e => importDeckFromJson demoStore e "u1" genI 20)

/-- Deck with an empty (JS-falsy) title, reachable through `updateDeck`
(whose merge does not re-default the title). -/
def emptyTitleDeck : Deck :=
  { id := "d2", title := "", description := "Desc2", authorId := "u1", authorName := "demo",
    isPublic := false, createdAt := 0, updatedAt := 0 }

/-- Store holding the empty-titled deck and the authenticated demo user. -/
def emptyTitleStore : Store :=
  { users := [("u1", demoUser)], decks := [("d2", emptyTitleDeck)], sessionId := some "u1" }

/-- Whether a string occurs in the store as a deck, theme, or flashcard
identifier (key or `id` field), or as a `deckId` back-reference.  Freshness
of the `uuidv4` oracle is stated as `usedId s (gen k) = false`. -/
def usedId (s : Store) (x : String) : Bool :=
  s.decks.any (fun p => p.1 == x || p.2.id == x) ||
  s.themes.any (fun p => p.1 == x || p.2.id == x || p.2.deckId == x) ||
  s.flashcards.any (fun p => p.1 == x || p.2.id == x || p.2.deckId == x)

/-- A flashcard with no slot left to migrate: none of its four media slots
has an inline base64 value together with a falsy reference id. -/
def cardClean (c : Flashcard) : Prop :=
  slotDirty c.front.image c.front.imageId = false ∧
  slotDirty c.front.audio c.front.audioId = false ∧
  slotDirty c.back.image c.back.imageId = false ∧
  slotDirty c.back.audio c.back.audioId = false

instance (c : Flashcard) : Decidable (cardClean c) := by
  unfold cardClean
  infer_instance

/-- Flashcard for the migration witness: inline front image, no reference. -/
def migCard : Flashcard :=
  { id := "f9", deckId := "d9", front := { text := "Q", image := some "data:image/png;base64,AAAA" },
    back := { text := "A" }, createdAt := 0, updatedAt := 0 }

/-- Migration witness state: one migratable card, empty media partitions. -/
def migState0 : MigState := { store := { flashcards := [("f9", migCard)] } }

/-- Migration witness environment: every blob store operation succeeds. -/
def migEnv : MigEnv := { now := 5, rand := fun _ => "r", storeOk := fun _ => true }

/-- Media Store environment where `openDatabase()` rejects. -/
def mdbOpenFail : MediaDBEnv := { openOk := .error "open failed", reqOk := .ok () }

/-- Media Store environment where the database opens but the keyed request
fires `onerror`. -/
def mdbReqFail : MediaDBEnv := { openOk := .ok (), reqOk := .error "request failed" }

/-- Second request-failure environment (for the witness of the amended
media-store theorem). -/
def mdbReqFail2 : MediaDBEnv := { openOk := .ok (), reqOk := .error "boom" }

/-!
### Library of facts about the JavaScript-object model
-/

@[simp] theorem alGet_nil {α : Type} (key : String) : alGet ([] : AList α) key = none := rfl

@[simp] theorem alGet_cons {α : Type} (k : String) (v : α) (t : AList α) (key : String) :
    alGet ((k, v) :: t) key = if k = key then some v else alGet t key := rfl

theorem alGet_append {α : Type} (m₁ m₂ : AList α) (key : String) :
    alGet (m₁ ++ m₂) key = ((alGet m₁ key).or (alGet m₂ key)) := by
  induction m₁ with
  | nil => simp [alGet]
  | cons p t ih =>
    obtain ⟨k, v⟩ := p
    by_cases h : k = key <;> simp [alGet, h, ih]

theorem alGet_alReplace_self {α : Type} (m : AList α) (key : String) (v : α)
    (h : (alGet m key).isSome) : alGet (alReplace m key v) key = some v := by
  induction m with
  | nil => simp [alGet] at h
  | cons p t ih =>
    obtain ⟨k, w⟩ := p
    by_cases hk : k = key
    · simp [alReplace, alGet, hk]
    · simp [alReplace, alGet, hk] at h ⊢
      exact ih h

theorem alGet_alReplace_ne {α : Type} (m : AList α) (key k' : String) (v : α)
    (h : k' ≠ key) : alGet (alReplace m key v) k' = alGet m k' := by
  induction m with
  | nil => simp [alReplace]
  | cons p t ih =>
    obtain ⟨k, w⟩ := p
    by_cases hk : k = key
    · subst hk
      simp [alReplace, alGet, Ne.symm h, ih]
    · simp [alReplace, alGet, hk, ih]

@[simp] theorem alGet_alPut_self {α : Type} (m : AList α) (key : String) (v : α) :
    alGet (alPut m key v) key = some v := by
  unfold alPut
  by_cases h : (alGet m key).isSome
  · simp [h, alGet_alReplace_self m key v h]
  · simp [h, alGet_append]
    simp at h
    simp [h, alGet]

theorem alGet_alPut_ne {α : Type} (m : AList α) (key k' : String) (v : α) (h : k' ≠ key) :
    alGet (alPut m key v) k' = alGet m k' := by
  unfold alPut
  by_cases hs : (alGet m key).isSome
  · simp [hs, alGet_alReplace_ne m key k' v h]
  · simp [hs, alGet_append, alGet, h]
    cases hg : alGet m k' <;> simp [Ne.symm h]

@[simp] theorem alGet_alDel_self {α : Type} (m : AList α) (key : String) :
    alGet (alDel m key) key = none := by
  induction m with
  | nil => simp [alDel]
  | cons p t ih =>
    obtain ⟨k, v⟩ := p
    by_cases hk : k = key <;> simp [alDel, hk, ih]

theorem alGet_alDel_ne {α : Type} (m : AList α) (key k' : String) (h : k' ≠ key) :
    alGet (alDel m key) k' = alGet m k' := by
  induction m with
  | nil => simp [alDel]
  | cons p t ih =>
    obtain ⟨k, v⟩ := p
    by_cases hk : k = key
    · subst hk
      simp [alDel, alGet, Ne.symm h, ih]
    · simp [alDel, alGet, hk, ih]

theorem alGet_eq_none_of_no_key {α : Type} (m : AList α) (key : String)
    (h : ∀ p ∈ m, p.1 ≠ key) : alGet m key = none := by
  induction m with
  | nil => rfl
  | cons p t ih =>
    obtain ⟨k, v⟩ := p
    simp only [alGet_cons, if_neg (h (k, v) (by simp))]
    exact ih (fun q hq => h q (by simp [hq]))

theorem alPut_of_absent {α : Type} (m : AList α) (k : String) (v : α)
    (h : alGet m k = none) : alPut m k v = m ++ [(k, v)] := by
  simp [alPut, h]

theorem strOr_some_of_ne (x dflt : String) (h : x ≠ "") : strOr (some x) dflt = x := by
  simp [strOr, h]

theorem strOr_some_empty_dflt (x : String) : strOr (some x) "" = x := by
  by_cases h : x = "" <;> simp [strOr, h]

theorem usedId_split (s : Store) (x : String) (h : usedId s x = false) :
    (∀ p ∈ s.decks, ¬(p.1 = x) ∧ ¬(p.2.id = x)) ∧
    (∀ p ∈ s.themes, ¬(p.1 = x) ∧ ¬(p.2.id = x) ∧ ¬(p.2.deckId = x)) ∧
    (∀ p ∈ s.flashcards, ¬(p.1 = x) ∧ ¬(p.2.id = x) ∧ ¬(p.2.deckId = x)) := by
  unfold usedId at h
  simp only [Bool.or_eq_false_iff, List.any_eq_false] at h
  obtain ⟨⟨hd, ht⟩, hf⟩ := h
  refine ⟨fun p hp => ?_, fun p hp => ?_, fun p hp => ?_⟩
  · have h2 := hd p hp
    simp only [Bool.or_eq_true, beq_iff_eq] at h2
    push_neg at h2
    exact h2
  · have h2 := ht p hp
    simp only [Bool.or_eq_true, beq_iff_eq] at h2
    push_neg at h2
    exact ⟨h2.1.1, h2.1.2, h2.2⟩
  · have h2 := hf p hp
    simp only [Bool.or_eq_true, beq_iff_eq] at h2
    push_neg at h2
    exact ⟨h2.1.1, h2.1.2, h2.2⟩

theorem usedId_decks_none (s : Store) (x : String) (h : usedId s x = false) :
    alGet s.decks x = none :=
  alGet_eq_none_of_no_key _ _ (fun p hp => ((usedId_split s x h).1 p hp).1)

theorem usedId_themes_none (s : Store) (x : String) (h : usedId s x = false) :
    alGet s.themes x = none :=
  alGet_eq_none_of_no_key _ _ (fun p hp => ((usedId_split s x h).2.1 p hp).1)

theorem usedId_flashcards_none (s : Store) (x : String) (h : usedId s x = false) :
    alGet s.flashcards x = none :=
  alGet_eq_none_of_no_key _ _ (fun p hp => ((usedId_split s x h).2.2 p hp).1)

theorem assignThemeIds_length (gen : Nat → String) :
    ∀ (i : Nat) (l : List Theme), (assignThemeIds gen i l).length = l.length
  | _, [] => rfl
  | i, _ :: ts => by simp [assignThemeIds, assignThemeIds_length gen (i + 1) ts]

theorem assignCardIds_length (gen : Nat → String) :
    ∀ (i : Nat) (l : List Flashcard), (assignCardIds gen i l).length = l.length
  | _, [] => rfl
  | i, _ :: cs => by simp [assignCardIds, assignCardIds_length gen (i + 1) cs]

theorem assignCardIds_sides (gen : Nat → String) :
    ∀ (i : Nat) (l : List Flashcard),
      (assignCardIds gen i l).map (fun c => (c.front, c.back)) =
        l.map (fun c => (c.front, c.back))
  | _, [] => rfl
  | i, c :: cs => by simp [assignCardIds, assignCardIds_sides gen (i + 1) cs]

/-- Effect of the theme-import loop: it only appends fresh theme bindings
(each owned by the new deck, with an id drawn from the generator at an index
inside the consumed range) and advances the generator index by the number of
themes; all other collections are untouched. -/
theorem importThemes_effects (gen : Nat → String) (now : Nat) (nid : String) :
    ∀ (ts : List Theme) (i : Nat) (s : Store) (m : AList String),
    (∀ j, i ≤ j → j < i + ts.length → alGet s.themes (gen j) = none) →
    (∀ j k, i ≤ j → j < i + ts.length → i ≤ k → k < i + ts.length → gen j = gen k → j = k) →
    ∃ newts : List (String × Theme),
      (importThemes gen now nid ts i s m).1 = { s with themes := s.themes ++ newts } ∧
      (importThemes gen now nid ts i s m).2.2 = i + ts.length ∧
      (∀ p ∈ newts, p.2.deckId = nid ∧ ∃ k, i ≤ k ∧ k < i + ts.length ∧ p.2.id = gen k) := by
  intro ts
  induction ts with
  | nil =>
    intro i s m _ _
    exact ⟨[], by simp [importThemes], by simp [importThemes], by simp⟩
  | cons t ts ih =>
    intro i s m hnone hinj
    have hfree : alGet s.themes (gen i) = none := hnone i (Nat.le_refl i) (by simp)
    set nt := (createTheme s
      { deckId := nid, title := some t.title, description := some t.description } (gen i) now).1
      with hnt
    have hput : alPut s.themes (gen i) nt = s.themes ++ [(gen i, nt)] :=
      alPut_of_absent _ _ _ hfree
    have hstep : importThemes gen now nid (t :: ts) i s m =
        importThemes gen now nid ts (i + 1)
          { s with themes := s.themes ++ [(gen i, nt)] } (alPut m t.id nt.id) := by
      show importThemes gen now nid ts (i + 1)
        { s with themes := alPut s.themes (gen i) nt } (alPut m t.id nt.id) =
        importThemes gen now nid ts (i + 1)
          { s with themes := s.themes ++ [(gen i, nt)] } (alPut m t.id nt.id)
      rw [hput]
    have hnone' : ∀ j, i + 1 ≤ j → j < (i + 1) + ts.length →
        alGet ({ s with themes := s.themes ++ [(gen i, nt)] } : Store).themes (gen j) = none := by
      intro j h1 h2
      show alGet (s.themes ++ [(gen i, nt)]) (gen j) = none
      rw [alGet_append]
      rw [hnone j (by omega) (by simp; omega)]
      have : gen i ≠ gen j := by
        intro he
        have := hinj i j (Nat.le_refl i) (by simp) (by omega) (by simp; omega) he
        omega
      simp [alGet, this]
    have hinj' : ∀ j k, i + 1 ≤ j → j < (i + 1) + ts.length → i + 1 ≤ k →
        k < (i + 1) + ts.length → gen j = gen k → j = k := by
      intro j k h1 h2 h3 h4 he
      exact hinj j k (by omega) (by simp; omega) (by omega) (by simp; omega) he
    obtain ⟨newts, hth, hidx, hprops⟩ := ih (i + 1)
      { s with themes := s.themes ++ [(gen i, nt)] } (alPut m t.id nt.id) hnone' hinj'
    refine ⟨(gen i, nt) :: newts, ?_, ?_, ?_⟩
    · rw [hstep, hth]
      simp
    · rw [hstep, hidx]
      simp
      omega
    · intro p hp
      rcases List.mem_cons.mp hp with hp | hp
      · subst hp
        refine ⟨rfl, i, Nat.le_refl i, by simp, rfl⟩
      · obtain ⟨h1, k, h2, h3, h4⟩ := hprops p hp
        exact ⟨h1, k, by omega, by simp at h3 ⊢; omega, h4⟩

/-- Effect of the flashcard-import loop: it only appends fresh flashcard
bindings, each owned by the new deck, with `front`/`back` taken verbatim
from the corresponding export card and an id drawn from the generator
inside the consumed range. -/
theorem importCards_effects (gen : Nat → String) (now : Nat) (nid : String) (m : AList String) :
    ∀ (cs : List Flashcard) (i : Nat) (s : Store),
    (∀ j, i ≤ j → j < i + cs.length → alGet s.flashcards (gen j) = none) →
    (∀ j k, i ≤ j → j < i + cs.length → i ≤ k → k < i + cs.length → gen j = gen k → j = k) →
    ∃ newcs : List (String × Flashcard),
      importCards gen now nid m cs i s = { s with flashcards := s.flashcards ++ newcs } ∧
      newcs.map (fun p => (p.2.front, p.2.back)) = cs.map (fun c => (c.front, c.back)) ∧
      (∀ p ∈ newcs, p.2.deckId = nid ∧ ∃ k, i ≤ k ∧ k < i + cs.length ∧ p.2.id = gen k) := by
  intro cs
  induction cs with
  | nil =>
    intro i s _ _
    exact ⟨[], by simp [importCards], rfl, by simp⟩
  | cons c cs ih =>
    intro i s hnone hinj
    have hfree : alGet s.flashcards (gen i) = none := hnone i (Nat.le_refl i) (by simp)
    set nc := (createFlashcard s
      { deckId := nid,
        themeId := match c.themeId with
          | none => none
          | some tid => if tid = "" then none else alGet m tid,
        front := some c.front, back := some c.back, difficulty := c.difficulty }
      (gen i) now).1 with hnc
    have hput : alPut s.flashcards (gen i) nc = s.flashcards ++ [(gen i, nc)] :=
      alPut_of_absent _ _ _ hfree
    have hstep : importCards gen now nid m (c :: cs) i s =
        importCards gen now nid m cs (i + 1)
          { s with flashcards := s.flashcards ++ [(gen i, nc)] } := by
      show importCards gen now nid m cs (i + 1)
        { s with flashcards := alPut s.flashcards (gen i) nc } =
        importCards gen now nid m cs (i + 1)
          { s with flashcards := s.flashcards ++ [(gen i, nc)] }
      rw [hput]
    have hnone' : ∀ j, i + 1 ≤ j → j < (i + 1) + cs.length →
        alGet ({ s with flashcards := s.flashcards ++ [(gen i, nc)] } : Store).flashcards
          (gen j) = none := by
      intro j h1 h2
      show alGet (s.flashcards ++ [(gen i, nc)]) (gen j) = none
      rw [alGet_append]
      rw [hnone j (by omega) (by simp; omega)]
      have : gen i ≠ gen j := by
        intro he
        have := hinj i j (Nat.le_refl i) (by simp) (by omega) (by simp; omega) he
        omega
      simp [alGet, this]
    have hinj' : ∀ j k, i + 1 ≤ j → j < (i + 1) + cs.length → i + 1 ≤ k →
        k < (i + 1) + cs.length → gen j = gen k → j = k := by
      intro j k h1 h2 h3 h4 he
      exact hinj j k (by omega) (by simp; omega) (by omega) (by simp; omega) he
    obtain ⟨newcs, hcs, hsides, hprops⟩ := ih (i + 1)
      { s with flashcards := s.flashcards ++ [(gen i, nc)] } hnone' hinj'
    refine ⟨(gen i, nc) :: newcs, ?_, ?_, ?_⟩
    · rw [hstep, hcs]
      simp
    · simp only [List.map_cons, hsides]
      have h1 : nc.front = c.front := rfl
      have h2 : nc.back = c.back := rfl
      rw [h1, h2]
    · intro p hp
      rcases List.mem_cons.mp hp with hp | hp
      · subst hp
        refine ⟨rfl, i, Nat.le_refl i, by simp, rfl⟩
      · obtain ⟨h1, k, h2, h3, h4⟩ := hprops p hp
        exact ⟨h1, k, by omega, by simp at h3 ⊢; omega, h4⟩

/-- Filtering the values of an appended object by a parent key that no old
binding matches and every new binding matches yields exactly the new
values. -/
theorem values_by_parent {α : Type} (old new : AList α) (f : α → String) (x : String)
    (hold : ∀ p ∈ old, ¬ (f p.2 = x)) (hnew : ∀ p ∈ new, f p.2 = x) :
    (alValues (old ++ new)).filter (fun a => f a = x) = alValues new := by
  unfold alValues
  rw [List.map_append, List.filter_append]
  have h1 : (old.map Prod.snd).filter (fun a => decide (f a = x)) = [] := by
    rw [List.filter_eq_nil_iff]
    intro a ha
    simp only [List.mem_map] at ha
    obtain ⟨p, hp, rfl⟩ := ha
    simpa using hold p hp
  have h2 : (new.map Prod.snd).filter (fun a => decide (f a = x)) = new.map Prod.snd := by
    rw [List.filter_eq_self]
    intro a ha
    simp only [List.mem_map] at ha
    obtain ⟨p, hp, rfl⟩ := ha
    simpa using hnew p hp
  rw [h1, h2]
  simp

/-- Values surviving a filter that removed everything matching `f · = x`
never match `f · = x` again. -/
theorem filter_values_erased {α : Type} (m : List (String × α)) (f : α → String) (x : String) :
    ((m.filter (fun e => ¬ (f e.2 = x))).map Prod.snd).filter (fun a => f a = x) = [] := by
  rw [List.filter_eq_nil_iff]
  intro a ha
  simp only [List.mem_map, List.mem_filter] at ha
  obtain ⟨e, ⟨_, hne⟩, rfl⟩ := ha
  simpa using hne

/-!
### Claim theorems
-/

/-- C8 (counterexample).  The Record Store raw read does not return an empty
mapping on a deserialization failure: `getLocalStorageItem` on a stored
document that `JSON.parse` rejects returns `null` (`none`), which is not the
empty mapping `some []` the claim requires. -/
theorem recordStore_parse_error_yields_null :
    getLocalStorageItem (α := AList Deck) (some "not-json") (fun _ => none) = none ∧
    getLocalStorageItem (α := AList Deck) (some "not-json") (fun _ => none) ≠ some [] := by
  exact ⟨rfl, by simp [getLocalStorageItem]⟩

/-- C8 (amended).  The Record Store raw read never throws (it is a total
function) and on a deserialization failure returns `null` — the sentinel the
code actually uses — which every collection-reading call site coalesces to
the empty mapping through `getLocalStorageItem(name) || {}`. -/
theorem recordStore_read_failsoft {α : Type} (raw : Option String)
    (parse : String → Option (AList α)) (item : String)
    (hraw : raw = some item) (hfail : parse item = none) :
    getLocalStorageItem raw parse = none ∧ readCollection raw parse = [] := by
  subst hraw
  by_cases hi : item = "" <;> simp [getLocalStorageItem, readCollection, hi, hfail]

/-- Witness for the amended C8 theorem at a concrete broken document. -/
theorem recordStore_read_failsoft_witness :
    getLocalStorageItem (α := AList Deck) (some "broken") (fun _ => none) = none ∧
    readCollection (α := Deck) (some "broken") (fun _ => none) = [] :=
  recordStore_read_failsoft (some "broken") (fun _ => none) "broken" rfl rfl

/-- C2 (counterexample).  When the database opens but the individual put/get
request fails, every Media Store operation returns a *rejected* promise
carrying the request error, not its sentinel value. -/
theorem mediaStore_request_failure_rejects :
    (storeImage mdbReqFail {} "img1" "blob").1 = PResult.rejected "request failed" ∧
    getImage mdbReqFail {} "img1" = PResult.rejected "request failed" ∧
    (storeAudio mdbReqFail {} "aud1" "blob").1 = PResult.rejected "request failed" ∧
    getAudio mdbReqFail {} "aud1" = PResult.rejected "request failed" ∧
    (storeImage mdbReqFail {} "img1" "blob").1 ≠ PResult.resolved false ∧
    getImage mdbReqFail {} "img1" ≠ PResult.resolved none := by
  refine ⟨rfl, rfl, rfl, rfl, by decide, by decide⟩

/-- C2 (amended).  A failure of `openDatabase()` is caught at the operation
boundary and converted to the sentinel (`false` for stores, `null` for
gets, the partitions untouched); but a failure of the individual put/get
request after a successful open rejects the returned promise with the
request's error; and with both steps succeeding the operations resolve to
`true` / the looked-up blob. -/
theorem mediaStore_failure_semantics (env : MediaDBEnv) (db : MediaDB) (id blob : String) :
    (∀ e, env.openOk = .error e →
      (storeImage env db id blob).1 = PResult.resolved false ∧
      (storeAudio env db id blob).1 = PResult.resolved false ∧
      getImage env db id = PResult.resolved none ∧
      getAudio env db id = PResult.resolved none ∧
      (storeImage env db id blob).2 = db ∧ (storeAudio env db id blob).2 = db) ∧
    (∀ e u, env.openOk = .ok u → env.reqOk = .error e →
      (storeImage env db id blob).1 = PResult.rejected e ∧
      (storeAudio env db id blob).1 = PResult.rejected e ∧
      getImage env db id = PResult.rejected e ∧
      getAudio env db id = PResult.rejected e) ∧
    (∀ u v, env.openOk = .ok u → env.reqOk = .ok v →
      (storeImage env db id blob).1 = PResult.resolved true ∧
      (storeAudio env db id blob).1 = PResult.resolved true ∧
      getImage env db id = PResult.resolved (alGet db.imagesStore id) ∧
      getAudio env db id = PResult.resolved (alGet db.audioStore id)) := by
  refine ⟨fun e he => ?_, fun e u ho hr => ?_, fun u v ho hr => ?_⟩
  · simp [storeImage, storeAudio, getImage, getAudio, he]
  · simp [storeImage, storeAudio, getImage, getAudio, ho, hr]
  · simp [storeImage, storeAudio, getImage, getAudio, ho, hr]

/-- Witness for the amended C2 theorem: sentinel on open failure, rejection
on request failure, at concrete environments. -/
theorem mediaStore_failure_semantics_witness :
    (storeImage mdbOpenFail {} "i" "b").1 = PResult.resolved false ∧
    (storeImage mdbReqFail2 {} "i" "b").1 = PResult.rejected "boom" :=
  ⟨((mediaStore_failure_semantics mdbOpenFail {} "i" "b").1 "open failed" rfl).1,
   ((mediaStore_failure_semantics mdbReqFail2 {} "i" "b").2.1 "boom" () rfl rfl).1⟩

/-- C10.  On an identifier absent from the corresponding collection,
`deleteDeck` / `deleteTheme` / `deleteFlashcard` return `false` and
`updateDeck` returns `null`, and in every case the store — hence each of its
collections (`users`, `decks`, `themes`, `flashcards`, `studySessions`,
`shareCodes`) — is returned completely unchanged. -/
theorem missing_id_operations_noop (s : Store) (id : String) (p : DeckPatch) (now : Nat) :
    (alGet s.decks id = none → deleteDeck s id = (false, s) ∧ updateDeck s id p now = (none, s)) ∧
    (alGet s.themes id = none → deleteTheme s id = (false, s)) ∧
    (alGet s.flashcards id = none → deleteFlashcard s id = (false, s)) := by
  refine ⟨fun h => ⟨?_, ?_⟩, fun h => ?_, fun h => ?_⟩ <;>
    simp [deleteDeck, updateDeck, deleteTheme, deleteFlashcard, h]

/-- Witness for C10 on the empty store and an unknown id. -/
theorem missing_id_operations_noop_witness :
    deleteDeck {} "missing" = (false, {}) ∧ updateDeck {} "missing" {} 7 = (none, {}) ∧
    deleteTheme {} "missing" = (false, {}) ∧ deleteFlashcard {} "missing" = (false, {}) := by
  have h := missing_id_operations_noop {} "missing" {} 7
  exact ⟨(h.1 rfl).1, (h.1 rfl).2, h.2.1 rfl, h.2.2 rfl⟩

/-- C9.  Deleting an existing theme removes only that theme: the call
returns `true`, the theme's own binding is gone while every other theme is
untouched, and the flashcards collection is entirely unchanged — in
particular the flashcards filtered by the deleted theme's id are exactly
the ones from before, still carrying the now-dangling `themeId`. -/
theorem deleteTheme_frame (s : Store) (tid : String) (t : Theme)
    (h : alGet s.themes tid = some t) :
    (deleteTheme s tid).1 = true ∧
    (deleteTheme s tid).2.flashcards = s.flashcards ∧
    alGet (deleteTheme s tid).2.themes tid = none ∧
    (∀ k, k ≠ tid → alGet (deleteTheme s tid).2.themes k = alGet s.themes k) ∧
    getFlashcardsByTheme (deleteTheme s tid).2 tid = getFlashcardsByTheme s tid ∧
    (deleteTheme s tid).2.decks = s.decks := by
  unfold deleteTheme
  rw [h]
  exact ⟨rfl, rfl, by simp, fun k hk => alGet_alDel_ne _ _ _ hk, rfl, rfl⟩

/-- Witness for C9 on the demo store. -/
theorem deleteTheme_frame_witness :
    (deleteTheme demoStore "t1").1 = true ∧
    (deleteTheme demoStore "t1").2.flashcards = demoStore.flashcards ∧
    getFlashcardsByTheme (deleteTheme demoStore "t1").2 "t1" =
      getFlashcardsByTheme demoStore "t1" := by
  have h := deleteTheme_frame demoStore "t1" demoTheme (by rfl)
  exact ⟨h.1, h.2.1, h.2.2.2.2.1⟩

/-- C3.  Deleting an existing deck returns `true` and the very state that
the synchronous pass produces (before `deleteDeck` returns) already has no
theme and no flashcard of that deck: `getThemesByDeck` and
`getFlashcardsByDeck` on the deleted id both return the empty list, and the
deck binding itself is gone. -/
theorem deleteDeck_cascades_children (s : Store) (did : String) (d : Deck)
    (h : alGet s.decks did = some d) :
    (deleteDeck s did).1 = true ∧
    getThemesByDeck (deleteDeck s did).2 did = [] ∧
    getFlashcardsByDeck (deleteDeck s did).2 did = [] ∧
    alGet (deleteDeck s did).2.decks did = none := by
  unfold deleteDeck
  rw [h]
  refine ⟨rfl, ?_, ?_, by simp⟩
  · simp [getThemesByDeck, alValues, filter_values_erased s.themes Theme.deckId did]
  · simp [getFlashcardsByDeck, alValues, filter_values_erased s.flashcards Flashcard.deckId did]

/-- Witness for C3 on the demo store. -/
theorem deleteDeck_cascades_children_witness :
    (deleteDeck demoStore "d1").1 = true ∧
    getThemesByDeck (deleteDeck demoStore "d1").2 "d1" = [] ∧
    getFlashcardsByDeck (deleteDeck demoStore "d1").2 "d1" = [] := by
  have h := deleteDeck_cascades_children demoStore "d1" demoDeck (by rfl)
  exact ⟨h.1, h.2.1, h.2.2.1⟩

/-- C5.  A share code created over an existing deck resolves to that deck at
any instant up to and including `expiryDays * 86400000` milliseconds after
creation (leaving the store untouched); strictly after that instant it
resolves to `null` and the code is evicted from the `shareCodes` collection
in the same lookup; and an unknown code resolves to `null` without touching
the store.  (`expiryDays * 24 * 60 * 60 * 1000 = expiryDays * 86400000`.) -/
theorem shareCode_expiry_semantics (s : Store) (did : String) (d : Deck) (e now : Nat)
    (code : String) (s₁ : Store) (n : Nat)
    (hd : alGet s.decks did = some d)
    (hc : createShareCode s did e now = some (code, s₁)) :
    (n ≤ now + e * 86400000 → getSharedDeck s₁ code n = (some d, s₁)) ∧
    (now + e * 86400000 < n →
      getSharedDeck s₁ code n = (none, { s₁ with shareCodes := alDel s₁.shareCodes code }) ∧
      alGet (getSharedDeck s₁ code n).2.shareCodes code = none) ∧
    (∀ s' c, alGet s'.shareCodes c = none → getSharedDeck s' c n = (none, s')) := by
  unfold createShareCode at hc
  rw [show getDeck s did = some d from hd] at hc
  simp only [Option.some.injEq, Prod.mk.injEq] at hc
  obtain ⟨hcode, hs₁⟩ := hc
  subst hcode
  subst hs₁
  refine ⟨fun hle => ?_, fun hlt => ?_, fun s' c hc' => ?_⟩
  · simp only [getSharedDeck, alGet_alPut_self]
    rw [if_neg (by omega)]
    simp [getDeck, hd]
  · simp only [getSharedDeck, alGet_alPut_self]
    rw [if_pos (by omega)]
    exact ⟨rfl, by simp⟩
  · unfold getSharedDeck
    rw [hc']

/-- Witness for C5: the demo share code resolves at the expiry boundary and
fails one millisecond later. -/
theorem shareCode_expiry_semantics_witness :
    getSharedDeck demoShareStore "share_d1_0_1" 86400000 = (some demoDeck, demoShareStore) ∧
    (getSharedDeck demoShareStore "share_d1_0_1" 86400001).1 = none := by
  have h := shareCode_expiry_semantics demoStore "d1" demoDeck 1 0 "share_d1_0_1"
    demoShareStore 86400000 (by rfl) (by rfl)
  have h2 := shareCode_expiry_semantics demoStore "d1" demoDeck 1 0 "share_d1_0_1"
    demoShareStore 86400001 (by rfl) (by rfl)
  refine ⟨h.1 (by omega), ?_⟩
  rw [(h2.2.1 (by omega)).1]

/-- C7 (counterexample).  A field supplied in the patch need not appear in
the synchronously merged record: an inline (`data:...base64,...`) cover
image different from the current one is deleted from the patch before the
merge (`delete updates.coverImage`), so the record `updateDeck` persists and
returns still carries the old cover image. -/
theorem update_cover_patch_dropped :
    coverPatch.coverImage = some "data:image/png;base64,AAAA" ∧
    ((updateDeck demoStore "d1" coverPatch 9).1.map Deck.coverImage) = some none := by
  exact ⟨rfl, by decide⟩

/-- C7 (amended).  For an existing deck, theme or flashcard, the update
operation synchronously persists and returns exactly the shallow merge of
the patch over the stored record with `updatedAt` set to the call time —
every supplied field appears in the merged record, with one exception: for
decks and themes, a supplied `coverImage` that is inline-encoded and
different from the stored one is deferred to the asynchronous migration
path and does not appear synchronously (the stored cover is kept).
Flashcard patches are merged in full, `front` and `back` included. -/
theorem update_merge_characterization (s : Store) (now : Nat) :
    (∀ did p d, alGet s.decks did = some d →
      ∃ u, updateDeck s did p now = (some u, { s with decks := alPut s.decks did u }) ∧
        u.id = p.id.getD d.id ∧
        u.title = p.title.getD d.title ∧
        u.description = p.description.getD d.description ∧
        u.coverImageId = (if p.coverImageId.isSome then p.coverImageId else d.coverImageId) ∧
        u.tags = p.tags.getD d.tags ∧
        u.authorId = p.authorId.getD d.authorId ∧
        u.authorName = p.authorName.getD d.authorName ∧
        u.isPublic = p.isPublic.getD d.isPublic ∧
        u.createdAt = p.createdAt.getD d.createdAt ∧
        u.updatedAt = now ∧
        u.isShared = p.isShared.getD d.isShared ∧
        u.originalId = (if p.originalId.isSome then p.originalId else d.originalId) ∧
        u.isPublished = p.isPublished.getD d.isPublished ∧
        (¬ coverDeferred p.coverImage d.coverImage →
          u.coverImage = (if p.coverImage.isSome then p.coverImage else d.coverImage)) ∧
        (coverDeferred p.coverImage d.coverImage → u.coverImage = d.coverImage)) ∧
    (∀ tid p t, alGet s.themes tid = some t →
      ∃ u, updateTheme s tid p now = (some u, { s with themes := alPut s.themes tid u }) ∧
        u.id = p.id.getD t.id ∧
        u.deckId = p.deckId.getD t.deckId ∧
        u.title = p.title.getD t.title ∧
        u.description = p.description.getD t.description ∧
        u.coverImageId = (if p.coverImageId.isSome then p.coverImageId else t.coverImageId) ∧
        u.createdAt = p.createdAt.getD t.createdAt ∧
        u.updatedAt = now ∧
        (¬ coverDeferred p.coverImage t.coverImage →
          u.coverImage = (if p.coverImage.isSome then p.coverImage else t.coverImage)) ∧
        (coverDeferred p.coverImage t.coverImage → u.coverImage = t.coverImage)) ∧
    (∀ fid p f, alGet s.flashcards fid = some f →
      ∃ u, updateFlashcard s fid p now = (some u, { s with flashcards := alPut s.flashcards fid u }) ∧
        u.id = p.id.getD f.id ∧
        u.deckId = p.deckId.getD f.deckId ∧
        u.themeId = (if p.themeId.isSome then p.themeId else f.themeId) ∧
        u.front = p.front.getD f.front ∧
        u.back = p.back.getD f.back ∧
        u.createdAt = p.createdAt.getD f.createdAt ∧
        u.updatedAt = now ∧
        u.lastReviewed = (if p.lastReviewed.isSome then p.lastReviewed else f.lastReviewed) ∧
        u.reviewCount = (if p.reviewCount.isSome then p.reviewCount else f.reviewCount) ∧
        u.difficulty = (if p.difficulty.isSome then p.difficulty else f.difficulty)) := by
  refine ⟨fun did p d h => ?_, fun tid p t h => ?_, fun fid p f h => ?_⟩
  · by_cases hc : coverDeferred p.coverImage d.coverImage
    · refine ⟨mergeDeck d { p with coverImage := none } now, ?_⟩
      simp [updateDeck, h, hc, mergeDeck]
    · refine ⟨mergeDeck d p now, ?_⟩
      simp [updateDeck, h, hc, mergeDeck]
  · by_cases hc : coverDeferred p.coverImage t.coverImage
    · refine ⟨mergeTheme t { p with coverImage := none } now, ?_⟩
      simp [updateTheme, h, hc, mergeTheme]
    · refine ⟨mergeTheme t p now, ?_⟩
      simp [updateTheme, h, hc, mergeTheme]
  · refine ⟨mergeFlashcard f p now, ?_⟩
    simp [updateFlashcard, h, mergeFlashcard]

/-- C1.  Evaluation of the export/import pipeline on a deck with one theme
and one card attached to it: `exportDeckToJson` gives the exported theme the
fresh id `E1` but leaves the exported flashcard's `themeId` at the source id
`t1`; `importDeckFromJson` keys its old-to-new map by the exported id `E1`,
so the `t1` lookup misses and the recreated flashcard carries no `themeId`
even though its theme was part of the export and was recreated (as `N1`). -/
theorem import_of_export_drops_theme_links :
    (demoExport.map (fun e => e.themes.map Theme.id)) = some ["E1"] ∧
    (demoExport.map (fun e => e.flashcards.map Flashcard.themeId)) = some [some "t1"] ∧
    (demoImport.map (fun r => (alGet r.2.themes "N1").isSome)) = some true ∧
    (demoImport.map (fun r => (getFlashcardsByDeck r.2 "N0").map Flashcard.themeId)) =
      some [none] := by
  exact ⟨rfl, rfl, by decide, by decide⟩

/-- Witness for the amended C7 theorem: a supplied title appears in the
synchronously returned record, with the timestamp bumped. -/
theorem update_merge_characterization_witness :
    ((updateDeck demoStore "d1" titlePatch 9).1.map Deck.title) = some "New" ∧
    ((updateDeck demoStore "d1" titlePatch 9).1.map Deck.updatedAt) = some 9 := by
  obtain ⟨u, hu, _, ht, rest⟩ :=
    (update_merge_characterization demoStore 9).1 "d1" titlePatch demoDeck (by rfl)
  have hupd : u.updatedAt = 9 := by
    exact rest.2.2.2.2.2.2.2.1
  rw [hu]
  simp [ht, hupd, titlePatch, demoDeck]

/-- C6 (counterexample).  The deck title is not always preserved through the
export/import round trip: a deck whose title is the empty string (reachable
through `updateDeck`, whose merge does not re-default the title) is imported
as `"Nouveau deck"`, because `createDeck` applies the falsy-defaulting
`title || "Nouveau deck"`. -/
theorem roundtrip_empty_title_not_preserved :
    emptyTitleDeck.title = "" ∧
    (((exportDeckToJson emptyTitleStore "d2" genE 10).bind
        (fun e => importDeckFromJson emptyTitleStore e "u1" genI 20)).map
      (fun r => (alGet r.2.decks r.1).map Deck.title)) = some (some "Nouveau deck") := by
  exact ⟨rfl, by decide⟩

/-- C6 (amended).  For an existing deck with a nonempty title and the
matching authenticated user, importing the deck's export creates a new deck
under a fresh id, with every recreated theme id and flashcard id fresh as
well (fresh: not occurring anywhere in the store as a deck/theme/flashcard
key, record id, or deck back-reference — in particular disjoint from the
ids of the source deck, its themes and its flashcards); the deck title and
description and the full `front`/`back` sides (text, media fields and
`additionalInfo`) of every flashcard are preserved in order.  An
empty-titled deck is instead renamed to the default `"Nouveau deck"` (see
the counterexample). -/
theorem export_import_roundtrip (s : Store) (did : String) (d : Deck) (u : User)
    (genA genB : Nat → String) (nowE nowI : Nat)
    (hd : alGet s.decks did = some d)
    (hu : getUser s = some u)
    (htitle : d.title ≠ "")
    (hfresh : ∀ k, k < 1 + (getThemesByDeck s did).length + (getFlashcardsByDeck s did).length →
      usedId s (genB k) = false)
    (hinj : ∀ j k,
      j < 1 + (getThemesByDeck s did).length + (getFlashcardsByDeck s did).length →
      k < 1 + (getThemesByDeck s did).length + (getFlashcardsByDeck s did).length →
      genB j = genB k → j = k) :
    ∃ E s',
      exportDeckToJson s did genA nowE = some E ∧
      importDeckFromJson s E u.id genB nowI = some (genB 0, s') ∧
      usedId s (genB 0) = false ∧
      (∀ x ∈ (getThemesByDeck s' (genB 0)).map Theme.id, usedId s x = false) ∧
      (∀ x ∈ (getFlashcardsByDeck s' (genB 0)).map Flashcard.id, usedId s x = false) ∧
      (alGet s'.decks (genB 0)).map Deck.title = some d.title ∧
      (alGet s'.decks (genB 0)).map Deck.description = some d.description ∧
      (getFlashcardsByDeck s' (genB 0)).map (fun c => (c.front, c.back)) =
        (getFlashcardsByDeck s did).map (fun c => (c.front, c.back)) := by
  set Ts := getThemesByDeck s did with hTsDef
  set Cs := getFlashcardsByDeck s did with hCsDef
  have hpos : usedId s (genB 0) = false := hfresh 0 (by omega)
  have hexp : exportDeckToJson s did genA nowE = some
      { id := genA 0, originalId := d.id, title := d.title, description := d.description,
        themes := assignThemeIds genA 1 Ts,
        flashcards := assignCardIds genA (1 + Ts.length) Cs,
        createdAt := nowE, updatedAt := nowE } := by
    unfold exportDeckToJson
    rw [show getDeck s did = some d from hd]
  set ndeck : Deck :=
    { id := genB 0, title := d.title, description := d.description,
      authorId := u.id, authorName := u.username, isPublic := false,
      createdAt := nowI, updatedAt := nowI, isShared := true,
      originalId := some d.id } with hnd
  set s₁ : Store := { s with decks := alPut s.decks (genB 0) ndeck } with hs₁
  have hcd : createDeck s
      { title := some d.title, description := some d.description, isPublic := some false,
        isShared := some true, originalId := some d.id } (genB 0) nowI = some (ndeck, s₁) := by
    unfold createDeck
    rw [hu]
    simp [hnd, hs₁, strOr_some_of_ne _ _ htitle, strOr_some_empty_dflt]
  have hTn : (assignThemeIds genA 1 Ts).length = Ts.length := assignThemeIds_length genA 1 Ts
  have hCn : (assignCardIds genA (1 + Ts.length) Cs).length = Cs.length :=
    assignCardIds_length genA (1 + Ts.length) Cs
  obtain ⟨newts, hth1, hth2, hth3⟩ := importThemes_effects genB nowI ndeck.id
    (assignThemeIds genA 1 Ts) 1 s₁ []
    (fun j h1 h2 => by
      have h2' : j < 1 + Ts.length + Cs.length := by rw [hTn] at h2; omega
      show alGet s.themes (genB j) = none
      exact usedId_themes_none s _ (hfresh j (by omega)))
    (fun j k h1 h2 h3 h4 he => hinj j k
      (by rw [hTn] at h2; omega) (by rw [hTn] at h4; omega) he)
  obtain ⟨newcs, hcs1, hcs2, hcs3⟩ := importCards_effects genB nowI ndeck.id
    (importThemes genB nowI ndeck.id (assignThemeIds genA 1 Ts) 1 s₁ []).2.1
    (assignCardIds genA (1 + Ts.length) Cs)
    ((importThemes genB nowI ndeck.id (assignThemeIds genA 1 Ts) 1 s₁ []).2.2)
    ((importThemes genB nowI ndeck.id (assignThemeIds genA 1 Ts) 1 s₁ []).1)
    (fun j h1 h2 => by
      rw [hth2, hTn] at h1 h2
      rw [hCn] at h2
      have h2' : j < 1 + Ts.length + Cs.length := by omega
      rw [hth1]
      show alGet s.flashcards (genB j) = none
      exact usedId_flashcards_none s _ (hfresh j (by omega)))
    (fun j k h1 h2 h3 h4 he => by
      rw [hth2, hTn] at h1 h2 h3 h4
      rw [hCn] at h2 h4
      exact hinj j k (by omega) (by omega) he)
  have hsthem : (importCards genB nowI ndeck.id
      (importThemes genB nowI ndeck.id (assignThemeIds genA 1 Ts) 1 s₁ []).2.1
      (assignCardIds genA (1 + Ts.length) Cs)
      (importThemes genB nowI ndeck.id (assignThemeIds genA 1 Ts) 1 s₁ []).2.2
      (importThemes genB nowI ndeck.id (assignThemeIds genA 1 Ts) 1 s₁ []).1).themes =
      s.themes ++ newts := by
    rw [hcs1]
    dsimp only
    rw [hth1]
  have hsfl : (importCards genB nowI ndeck.id
      (importThemes genB nowI ndeck.id (assignThemeIds genA 1 Ts) 1 s₁ []).2.1
      (assignCardIds genA (1 + Ts.length) Cs)
      (importThemes genB nowI ndeck.id (assignThemeIds genA 1 Ts) 1 s₁ []).2.2
      (importThemes genB nowI ndeck.id (assignThemeIds genA 1 Ts) 1 s₁ []).1).flashcards =
      s.flashcards ++ newcs := by
    rw [hcs1]
    dsimp only
    rw [hth1]
  have hsdecks : (importCards genB nowI ndeck.id
      (importThemes genB nowI ndeck.id (assignThemeIds genA 1 Ts) 1 s₁ []).2.1
      (assignCardIds genA (1 + Ts.length) Cs)
      (importThemes genB nowI ndeck.id (assignThemeIds genA 1 Ts) 1 s₁ []).2.2
      (importThemes genB nowI ndeck.id (assignThemeIds genA 1 Ts) 1 s₁ []).1).decks =
      alPut s.decks (genB 0) ndeck := by
    rw [hcs1]
    dsimp only
    rw [hth1]
  have himp : importDeckFromJson s
      { id := genA 0, originalId := d.id, title := d.title, description := d.description,
        themes := assignThemeIds genA 1 Ts,
        flashcards := assignCardIds genA (1 + Ts.length) Cs,
        createdAt := nowE, updatedAt := nowE } u.id genB nowI =
      some (genB 0, importCards genB nowI ndeck.id
        (importThemes genB nowI ndeck.id (assignThemeIds genA 1 Ts) 1 s₁ []).2.1
        (assignCardIds genA (1 + Ts.length) Cs)
        (importThemes genB nowI ndeck.id (assignThemeIds genA 1 Ts) 1 s₁ []).2.2
        (importThemes genB nowI ndeck.id (assignThemeIds genA 1 Ts) 1 s₁ []).1) := by
    unfold importDeckFromJson
    rw [hu]
    dsimp only
    rw [if_neg (by simp)]
    rw [hcd]
  have husedSplit := usedId_split s (genB 0) hpos
  have hthemesFiltered : getThemesByDeck (importCards genB nowI ndeck.id
      (importThemes genB nowI ndeck.id (assignThemeIds genA 1 Ts) 1 s₁ []).2.1
      (assignCardIds genA (1 + Ts.length) Cs)
      (importThemes genB nowI ndeck.id (assignThemeIds genA 1 Ts) 1 s₁ []).2.2
      (importThemes genB nowI ndeck.id (assignThemeIds genA 1 Ts) 1 s₁ []).1) (genB 0) =
      alValues newts := by
    unfold getThemesByDeck
    rw [hsthem]
    exact values_by_parent s.themes newts Theme.deckId (genB 0)
      (fun p hp => (husedSplit.2.1 p hp).2.2)
      (fun p hp => (hth3 p hp).1)
  have hcardsFiltered : getFlashcardsByDeck (importCards genB nowI ndeck.id
      (importThemes genB nowI ndeck.id (assignThemeIds genA 1 Ts) 1 s₁ []).2.1
      (assignCardIds genA (1 + Ts.length) Cs)
      (importThemes genB nowI ndeck.id (assignThemeIds genA 1 Ts) 1 s₁ []).2.2
      (importThemes genB nowI ndeck.id (assignThemeIds genA 1 Ts) 1 s₁ []).1) (genB 0) =
      alValues newcs := by
    unfold getFlashcardsByDeck
    rw [hsfl]
    exact values_by_parent s.flashcards newcs Flashcard.deckId (genB 0)
      (fun p hp => (husedSplit.2.2 p hp).2.2)
      (fun p hp => (hcs3 p hp).1)
  refine ⟨_, _, hexp, himp, hpos, ?_, ?_, ?_, ?_, ?_⟩
  · intro x hx
    rw [hthemesFiltered] at hx
    simp only [alValues, List.map_map, List.mem_map] at hx
    obtain ⟨p, hp, rfl⟩ := hx
    obtain ⟨_, k, hk1, hk2, hk3⟩ := hth3 p hp
    rw [hTn] at hk2
    rw [show (Theme.id ∘ Prod.snd) p = p.2.id from rfl, hk3]
    exact hfresh k (by omega)
  · intro x hx
    rw [hcardsFiltered] at hx
    simp only [alValues, List.map_map, List.mem_map] at hx
    obtain ⟨p, hp, rfl⟩ := hx
    obtain ⟨_, k, hk1, hk2, hk3⟩ := hcs3 p hp
    rw [hth2, hTn] at hk1 hk2
    rw [hCn] at hk2
    rw [show (Flashcard.id ∘ Prod.snd) p = p.2.id from rfl, hk3]
    exact hfresh k (by omega)
  · rw [hsdecks, alGet_alPut_self]
    rfl
  · rw [hsdecks, alGet_alPut_self]
    rfl
  · rw [hcardsFiltered]
    have hcomp : (alValues newcs).map (fun c => (c.front, c.back)) =
        newcs.map (fun p => (p.2.front, p.2.back)) := by
      simp [alValues, List.map_map]
    rw [hcomp, hcs2, assignCardIds_sides]

/-- Witness for the amended C6 theorem on the demo store: the round trip
yields a new deck whose title is the source title `"T"`. -/
theorem export_import_roundtrip_witness :
    ∃ E s',
      exportDeckToJson demoStore "d1" genE 10 = some E ∧
      importDeckFromJson demoStore E "u1" genI 20 = some (genI 0, s') ∧
      (alGet s'.decks (genI 0)).map Deck.title = some "T" := by
  obtain ⟨E, s', hexp, himp, _, _, _, htitle, _⟩ :=
    export_import_roundtrip demoStore "d1" demoDeck demoUser genE genI 10 20
      (by rfl) (by rfl) (by decide) (by decide)
      (by
        intro j k hj hk
        have h3 : 1 + (getThemesByDeck demoStore "d1").length +
            (getFlashcardsByDeck demoStore "d1").length = 3 := rfl
        rw [h3] at hj hk
        interval_cases j <;> interval_cases k <;> decide)
  exact ⟨E, s', hexp, himp, by rw [htitle]; rfl⟩

theorem optIfSelf {α : Type} (o : Option α) : (if o.isSome then o else o) = o := by
  cases o <;> rfl

theorem alReplace_keys {α : Type} (m : AList α) (key : String) (v : α) :
    (alReplace m key v).map Prod.fst = m.map Prod.fst := by
  induction m with
  | nil => rfl
  | cons p t ih =>
    obtain ⟨k, w⟩ := p
    by_cases h : k = key <;> simp [alReplace, h, ih]

theorem alPut_keys_of_present {α : Type} (m : AList α) (key : String) (v : α)
    (h : (alGet m key).isSome) : (alPut m key v).map Prod.fst = m.map Prod.fst := by
  simp [alPut, h, alReplace_keys]

theorem alPut_eq_alReplace {α : Type} (m : AList α) (key : String) (v : α)
    (h : (alGet m key).isSome) : alPut m key v = alReplace m key v := by
  simp [alPut, h]

theorem mem_alReplace {α : Type} (m : AList α) (key : String) (v : α) (p : String × α) :
    p ∈ alReplace m key v → p = (key, v) ∨ (p ∈ m ∧ p.1 ≠ key) := by
  induction m with
  | nil => intro h; simp [alReplace] at h
  | cons q t ih =>
    obtain ⟨k, w⟩ := q
    by_cases hk : k = key
    · subst hk
      intro h
      rw [show alReplace ((k, w) :: t) k v = (k, v) :: alReplace t k v from by
        simp [alReplace]] at h
      rcases List.mem_cons.mp h with h | h
      · left; exact h
      · rcases ih h with h' | h'
        · left; exact h'
        · right; exact ⟨List.mem_cons_of_mem _ h'.1, h'.2⟩
    · intro h
      rw [show alReplace ((k, w) :: t) key v = (k, w) :: alReplace t key v from by
        simp [alReplace, hk]] at h
      rcases List.mem_cons.mp h with h | h
      · right
        refine ⟨by simp [h], ?_⟩
        rw [h]
        exact hk
      · rcases ih h with h' | h'
        · left; exact h'
        · right; exact ⟨List.mem_cons_of_mem _ h'.1, h'.2⟩

theorem alGet_of_mem_nodup {α : Type} (m : AList α) (k : String) (v : α)
    (hnd : (m.map Prod.fst).Nodup) (hmem : (k, v) ∈ m) : alGet m k = some v := by
  induction m with
  | nil => simp at hmem
  | cons p t ih =>
    obtain ⟨k', w⟩ := p
    simp only [List.map_cons, List.nodup_cons] at hnd
    simp only [List.mem_cons] at hmem
    rcases hmem with hmem | hmem
    · have h1 : k' = k := by
        have := congrArg Prod.fst hmem
        simpa using this.symm
      have h2 : w = v := by
        have := congrArg Prod.snd hmem
        simpa using this.symm
      subst h1
      simp [alGet, h2]
    · have hne : k' ≠ k := fun he =>
        hnd.1 (he ▸ List.mem_map.mpr ⟨(k, v), hmem, rfl⟩)
      simp [alGet, hne, ih hnd.2 hmem]

theorem needsId_generated_img (now : Nat) (r : String) :
    needsId (some (generateMediaId "img" now r)) = false := by
  have hne : generateMediaId "img" now r ≠ "" := by
    intro h
    have h2 : (generateMediaId "img" now r).length = 0 := by rw [h]; rfl
    simp [generateMediaId, String.length_append] at h2
    exact absurd h2.1.1.1 (by decide)
  simp [needsId, hne]

theorem needsId_generated_aud (now : Nat) (r : String) :
    needsId (some (generateMediaId "aud" now r)) = false := by
  have hne : generateMediaId "aud" now r ≠ "" := by
    intro h
    have h2 : (generateMediaId "aud" now r).length = 0 := by rw [h]; rfl
    simp [generateMediaId, String.length_append] at h2
    exact absurd h2.1.1.1 (by decide)
  simp [needsId, hne]

theorem slotMigrate_clean (env : MigEnv) (st : MigState) (isImg : Bool) (v idf : Option String)
    (h : slotDirty v idf = false) :
    slotMigrate env st isImg v idf = (st, idf, false) := by
  simp [slotMigrate, h]

theorem slotMigrate_store (env : MigEnv) (st : MigState) (isImg : Bool) (v idf : Option String) :
    (slotMigrate env st isImg v idf).1.store = st.store := by
  unfold slotMigrate
  by_cases h : slotDirty v idf = true
  · simp only [h, if_true]
    by_cases hok : env.storeOk st.k = true <;> simp [hok]
  · simp [h]

theorem slotMigrate_result_clean (env : MigEnv) (st : MigState) (isImg : Bool)
    (v idf : Option String) (hok : env.storeOk st.k = true) :
    slotDirty v (slotMigrate env st isImg v idf).2.1 = false := by
  by_cases h : slotDirty v idf = true
  · unfold slotMigrate
    simp only [h, if_true, hok]
    cases isImg
    · simp [slotDirty, needsId_generated_aud]
    · simp [slotDirty, needsId_generated_img]
  · rw [slotMigrate_clean env st isImg v idf (by simpa using h)]
    simpa using h

theorem slotMigrate_updated (env : MigEnv) (st : MigState) (isImg : Bool)
    (v idf : Option String) (hok : env.storeOk st.k = true) :
    (slotMigrate env st isImg v idf).2.2 = slotDirty v idf := by
  by_cases h : slotDirty v idf = true
  · unfold slotMigrate
    simp [h, hok]
  · rw [slotMigrate_clean env st isImg v idf (by simpa using h)]
    simpa using (Bool.not_eq_true _).mp h

theorem mergeFlashcard_toPatch_self (base c : Flashcard) (now : Nat)
    (h1 : base.themeId = c.themeId) (h2 : base.lastReviewed = c.lastReviewed)
    (h3 : base.reviewCount = c.reviewCount) (h4 : base.difficulty = c.difficulty) :
    mergeFlashcard base c.toPatch now = { c with updatedAt := now } := by
  unfold mergeFlashcard Flashcard.toPatch
  rw [h1, h2, h3, h4]
  simp [optIfSelf]

theorem migrateCard_clean (env : MigEnv) (st : MigState) (c : Flashcard)
    (h : cardClean c) : migrateCard env st c = (st, 0) := by
  obtain ⟨h1, h2, h3, h4⟩ := h
  simp [migrateCard,
    slotMigrate_clean env st true c.front.image c.front.imageId h1,
    slotMigrate_clean env st false c.front.audio c.front.audioId h2,
    slotMigrate_clean env st true c.back.image c.back.imageId h3,
    slotMigrate_clean env st false c.back.audio c.back.audioId h4]

theorem migrateCard_spec (env : MigEnv) (st : MigState) (c : Flashcard)
    (hall : ∀ k, env.storeOk k = true)
    (hold : alGet st.store.flashcards c.id = some c) :
    ∃ st' n, migrateCard env st c = (st', n) ∧
      ((st'.store = st.store ∧ cardClean c) ∨
       (∃ merged, st'.store =
          { st.store with flashcards := alPut st.store.flashcards c.id merged } ∧
         merged.id = c.id ∧ cardClean merged)) := by
  rcases h1 : slotMigrate env st true c.front.image c.front.imageId with ⟨st1, f1, u1⟩
  rcases h2 : slotMigrate env st1 false c.front.audio c.front.audioId with ⟨st2, f2, u2⟩
  rcases h3 : slotMigrate env st2 true c.back.image c.back.imageId with ⟨st3, f3, u3⟩
  rcases h4 : slotMigrate env st3 false c.back.audio c.back.audioId with ⟨st4, f4, u4⟩
  have hs1 : st1.store = st.store := by
    have := slotMigrate_store env st true c.front.image c.front.imageId
    rw [h1] at this
    exact this
  have hs2 : st2.store = st1.store := by
    have := slotMigrate_store env st1 false c.front.audio c.front.audioId
    rw [h2] at this
    exact this
  have hs3 : st3.store = st2.store := by
    have := slotMigrate_store env st2 true c.back.image c.back.imageId
    rw [h3] at this
    exact this
  have hs4 : st4.store = st3.store := by
    have := slotMigrate_store env st3 false c.back.audio c.back.audioId
    rw [h4] at this
    exact this
  have hf1 : slotDirty c.front.image f1 = false := by
    have := slotMigrate_result_clean env st true c.front.image c.front.imageId (hall st.k)
    rw [h1] at this
    exact this
  have hf2 : slotDirty c.front.audio f2 = false := by
    have := slotMigrate_result_clean env st1 false c.front.audio c.front.audioId (hall st1.k)
    rw [h2] at this
    exact this
  have hf3 : slotDirty c.back.image f3 = false := by
    have := slotMigrate_result_clean env st2 true c.back.image c.back.imageId (hall st2.k)
    rw [h3] at this
    exact this
  have hf4 : slotDirty c.back.audio f4 = false := by
    have := slotMigrate_result_clean env st3 false c.back.audio c.back.audioId (hall st3.k)
    rw [h4] at this
    exact this
  have hu1 : u1 = slotDirty c.front.image c.front.imageId := by
    have := slotMigrate_updated env st true c.front.image c.front.imageId (hall st.k)
    rw [h1] at this
    exact this
  have hu2 : u2 = slotDirty c.front.audio c.front.audioId := by
    have := slotMigrate_updated env st1 false c.front.audio c.front.audioId (hall st1.k)
    rw [h2] at this
    exact this
  have hu3 : u3 = slotDirty c.back.image c.back.imageId := by
    have := slotMigrate_updated env st2 true c.back.image c.back.imageId (hall st2.k)
    rw [h3] at this
    exact this
  have hu4 : u4 = slotDirty c.back.audio c.back.audioId := by
    have := slotMigrate_updated env st3 false c.back.audio c.back.audioId (hall st3.k)
    rw [h4] at this
    exact this
  have hstore4 : st4.store = st.store := by rw [hs4, hs3, hs2, hs1]
  by_cases hup : (u1 || u2 || u3 || u4) = true
  · -- at least one slot migrated: the card is written back
    refine ⟨{ st4 with store := (updateFlashcard st4.store c.id
        (Flashcard.toPatch { c with
          front := { c.front with imageId := f1, audioId := f2 }
          back := { c.back with imageId := f3, audioId := f4 } }) env.now).2 }, 1,
      ?_, Or.inr ?_⟩
    · simp only [migrateCard, h1, h2, h3, h4, hup]
      simp
    · refine ⟨{ c with
          front := { c.front with imageId := f1, audioId := f2 }
          back := { c.back with imageId := f3, audioId := f4 }
          updatedAt := env.now }, ?_, rfl, ?_⟩
      · show (updateFlashcard st4.store c.id
            (Flashcard.toPatch { c with
              front := { c.front with imageId := f1, audioId := f2 }
              back := { c.back with imageId := f3, audioId := f4 } }) env.now).2 = _
        rw [hstore4]
        unfold updateFlashcard
        rw [hold]
        simp [mergeFlashcard, Flashcard.toPatch, optIfSelf]
      · exact ⟨hf1, hf2, hf3, hf4⟩
  · -- no slot migrated: the card was already clean and nothing was written
    have hAll : u1 = false ∧ u2 = false ∧ u3 = false ∧ u4 = false := by
      simp only [Bool.or_eq_true] at hup
      push_neg at hup
      exact ⟨by simpa using hup.1.1.1, by simpa using hup.1.1.2,
        by simpa using hup.1.2, by simpa using hup.2⟩
    refine ⟨st4, 0, ?_, Or.inl ⟨hstore4, ?_, ?_, ?_, ?_⟩⟩
    · simp only [migrateCard, h1, h2, h3, h4, hAll.1, hAll.2.1, hAll.2.2.1, hAll.2.2.2]
      simp
    · exact (hu1.symm.trans hAll.1)
    · exact (hu2.symm.trans hAll.2.1)
    · exact (hu3.symm.trans hAll.2.2.1)
    · exact (hu4.symm.trans hAll.2.2.2)

theorem migrateRun_clean (env : MigEnv) :
    ∀ (l : List Flashcard) (st : MigState), (∀ c ∈ l, cardClean c) →
    migrateRun env l st = (st, 0) := by
  intro l
  induction l with
  | nil => intro st _; rfl
  | cons c cs ih =>
    intro st h
    have hc := migrateCard_clean env st c (h c (by simp))
    simp [migrateRun, hc, ih st (fun x hx => h x (by simp [hx]))]

theorem migrateRun_spec (env : MigEnv) (hall : ∀ k, env.storeOk k = true) :
    ∀ (l : List Flashcard) (st : MigState),
    (∀ c ∈ l, alGet st.store.flashcards c.id = some c) →
    (l.map Flashcard.id).Nodup →
    (st.store.flashcards.map Prod.fst).Nodup →
    (∀ p ∈ st.store.flashcards, p.2.id = p.1) →
    (∀ p ∈ st.store.flashcards, cardClean p.2 ∨ p.2.id ∈ l.map Flashcard.id) →
    ∀ p ∈ (migrateRun env l st).1.store.flashcards, cardClean p.2 := by
  intro l
  induction l with
  | nil =>
    intro st _ _ _ _ hcov p hp
    rcases hcov p (by simpa [migrateRun] using hp) with h | h
    · exact h
    · simp at h
  | cons c cs ih =>
    intro st hmem hnd hknd hkey hcov
    obtain ⟨st', n, heq, hcases⟩ := migrateCard_spec env st c hall (hmem c (by simp))
    have hrun : (migrateRun env (c :: cs) st).1 = (migrateRun env cs st').1 := by
      simp [migrateRun, heq]
    rw [hrun]
    have hndcs : (cs.map Flashcard.id).Nodup := by
      simp only [List.map_cons, List.nodup_cons] at hnd
      exact hnd.2
    have hcid_not : c.id ∉ cs.map Flashcard.id := by
      simp only [List.map_cons, List.nodup_cons] at hnd
      exact hnd.1
    rcases hcases with ⟨hsame, hclean⟩ | ⟨merged, hst', hid, hcleanm⟩
    · apply ih st'
      · intro x hx
        rw [hsame]
        exact hmem x (List.mem_cons_of_mem _ hx)
      · exact hndcs
      · rw [hsame]; exact hknd
      · rw [hsame]; exact hkey
      · intro p hp
        rw [hsame] at hp
        rcases hcov p hp with h | h
        · exact Or.inl h
        · rcases List.mem_cons.mp h with h | h
          · left
            have hp1 : p.1 = c.id := by rw [← hkey p hp, h]
            have hg : alGet st.store.flashcards p.1 = some p.2 :=
              alGet_of_mem_nodup _ _ _ hknd (by simpa using hp)
            rw [hp1] at hg
            have h2 := hmem c (by simp)
            rw [hg] at h2
            rw [Option.some.inj h2]
            exact hclean
          · exact Or.inr h
    · have hpresent : (alGet st.store.flashcards c.id).isSome := by
        rw [hmem c (by simp)]; rfl
      have hrepl : alPut st.store.flashcards c.id merged =
          alReplace st.store.flashcards c.id merged :=
        alPut_eq_alReplace _ _ _ hpresent
      apply ih st'
      · intro x hx
        rw [hst']
        show alGet (alPut st.store.flashcards c.id merged) x.id = some x
        have hne : x.id ≠ c.id := fun he =>
          hcid_not (he ▸ List.mem_map.mpr ⟨x, hx, rfl⟩)
        rw [alGet_alPut_ne _ _ _ _ hne]
        exact hmem x (List.mem_cons_of_mem _ hx)
      · exact hndcs
      · rw [hst']
        show ((alPut st.store.flashcards c.id merged).map Prod.fst).Nodup
        rw [alPut_keys_of_present _ _ _ hpresent]
        exact hknd
      · intro p hp
        rw [hst'] at hp
        replace hp : p ∈ alReplace st.store.flashcards c.id merged := by
          rw [← hrepl]; exact hp
        rcases mem_alReplace _ _ _ _ hp with h | h
        · rw [h]
          exact hid
        · exact hkey p h.1
      · intro p hp
        rw [hst'] at hp
        replace hp : p ∈ alReplace st.store.flashcards c.id merged := by
          rw [← hrepl]; exact hp
        rcases mem_alReplace _ _ _ _ hp with h | h
        · left
          rw [h]
          exact hcleanm
        · rcases hcov p h.1 with hcl | hin
          · exact Or.inl hcl
          · rcases List.mem_cons.mp hin with he | he
            · exact absurd (by rw [← hkey p h.1, he]) h.2
            · exact Or.inr he

/-- C4.  The batch media migration is idempotent on the Record Store state:
on a well-formed flashcard collection (unique keys, each binding's key equal
to its card's id — the invariant every JavaScript object the source builds
satisfies), if every blob store operation of the first run succeeds, then a
second run — under any environment — performs no update at all (it returns
the first run's state unchanged) and reports a migrated-count of 0, and the
scan `checkForMigrationNeeded` reports 0 after the first run, because every
side that had an inline base64 value and no reference id now carries one. -/
theorem migrate_idempotent (env₁ env₂ : MigEnv) (st : MigState)
    (hknd : (st.store.flashcards.map Prod.fst).Nodup)
    (hkey : ∀ p ∈ st.store.flashcards, p.2.id = p.1)
    (hok : ∀ k, env₁.storeOk k = true) :
    (migrateExistingMediaToIndexedDB env₂ (migrateExistingMediaToIndexedDB env₁ st).2).1 = 0 ∧
    (migrateExistingMediaToIndexedDB env₂ (migrateExistingMediaToIndexedDB env₁ st).2).2 =
      (migrateExistingMediaToIndexedDB env₁ st).2 ∧
    checkForMigrationNeeded (migrateExistingMediaToIndexedDB env₁ st).2.store = 0 := by
  have hmem : ∀ c ∈ getFlashcards st.store, alGet st.store.flashcards c.id = some c := by
    intro c hc
    simp only [getFlashcards, alValues, List.mem_map] at hc
    obtain ⟨p, hp, rfl⟩ := hc
    rw [hkey p hp]
    exact alGet_of_mem_nodup _ _ _ hknd (by simpa using hp)
  have hmapeq : (getFlashcards st.store).map Flashcard.id = st.store.flashcards.map Prod.fst := by
    simp only [getFlashcards, alValues, List.map_map]
    exact List.map_congr_left (fun p hp => hkey p hp)
  have hnd2 : ((getFlashcards st.store).map Flashcard.id).Nodup := by
    rw [hmapeq]; exact hknd
  have hcov : ∀ p ∈ st.store.flashcards,
      cardClean p.2 ∨ p.2.id ∈ (getFlashcards st.store).map Flashcard.id := by
    intro p hp
    right
    rw [hmapeq, hkey p hp]
    exact List.mem_map.mpr ⟨p, hp, rfl⟩
  have hclean1 := migrateRun_spec env₁ hok (getFlashcards st.store) st hmem hnd2 hknd hkey hcov
  have hcleanVals : ∀ c ∈ getFlashcards (migrateRun env₁ (getFlashcards st.store) st).1.store,
      cardClean c := by
    intro c hc
    simp only [getFlashcards, alValues, List.mem_map] at hc
    obtain ⟨p, hp, rfl⟩ := hc
    exact hclean1 p hp
  refine ⟨?_, ?_, ?_⟩
  · show (migrateRun env₂
      (getFlashcards (migrateRun env₁ (getFlashcards st.store) st).1.store)
      (migrateRun env₁ (getFlashcards st.store) st).1).2 = 0
    rw [migrateRun_clean env₂ _ _ hcleanVals]
  · show (migrateRun env₂
      (getFlashcards (migrateRun env₁ (getFlashcards st.store) st).1.store)
      (migrateRun env₁ (getFlashcards st.store) st).1).1 =
      (migrateRun env₁ (getFlashcards st.store) st).1
    rw [migrateRun_clean env₂ _ _ hcleanVals]
  · show ((getFlashcards (migrateRun env₁ (getFlashcards st.store) st).1.store).filter _).length = 0
    have hnil : ∀ c ∈ getFlashcards (migrateRun env₁ (getFlashcards st.store) st).1.store,
        ¬((slotDirty c.front.image c.front.imageId || slotDirty c.front.audio c.front.audioId ||
           slotDirty c.back.image c.back.imageId || slotDirty c.back.audio c.back.audioId) = true) := by
      intro c hc
      obtain ⟨d1, d2, d3, d4⟩ := hcleanVals c hc
      simp [d1, d2, d3, d4]
    rw [List.filter_eq_nil_iff.mpr hnil]
    rfl

/-- Witness for C4: one card with an inline front image and no reference;
the second run reports zero migrations. -/
theorem migrate_idempotent_witness :
    (migrateExistingMediaToIndexedDB migEnv
      (migrateExistingMediaToIndexedDB migEnv migState0).2).1 = 0 :=
  (migrate_idempotent migEnv migEnv migState0 (by decide) (by decide) (fun _ => rfl)).1

end FlashForge
